import Mathlib

/-!
# Verification of the `touchbundle` metric-bundle reflection engine

A shallow embedding of the `touchbundle` package of `xmidt-org/touchstone`:
the snake-case identifier normalizer (`snakifier`, `toSnakeCase`), metric name
resolution (`MetricName`), the per-field tag parsers and legality checks
(`metricField` and its methods in `metricField.go`), and the bundle populator
(`populate` / `Populate` in `bundle.go`).

Modelling conventions:
 - Go strings are Lean `String`s; most algorithms are written over `List Char`
   (the rune sequence) and wrapped.
 - Character classification (`unicode.IsUpper`, `unicode.IsLower`,
   `unicode.IsSpace`) is modelled on its ASCII fragment, which is what the
   engine's inputs (Go identifiers and struct tags in this repository) use.
   `unicode.IsTitle` is `false` on every ASCII character.
 - Go `float64` values produced by `strconv.ParseFloat` are modelled as exact
   rationals; the modelled grammar is the decimal fragment (sign, digits,
   fraction, exponent) of `strconv.ParseFloat`.
 - `go.uber.org/multierr` aggregates are modelled as `List Err`, `nil` being
   `[]`; `multierr.Append` is list append (it flattens, keeping every
   individual error in order).
 - Error messages built with `fmt.Sprintf` are modelled as structured
   `ErrMsg` values, one constructor per distinct format string used by the
   source (the format strings are pairwise non-unifiable, so structured
   equality coincides with message equality).
-/

/-! ## Character helpers (ASCII fragment of Go's `unicode` package) -/

/-- Lowercase ASCII letter or ASCII digit: the characters the already-snake-case
input class of the normalizer consists of (besides single underscores). -/
def plainSnakeChar (c : Char) : Bool :=
  (97 ≤ c.toNat && c.toNat ≤ 122) || (48 ≤ c.toNat && c.toNat ≤ 57)

/-- Model of Go `unicode.IsTitle` on ASCII input: no ASCII character is titlecase. -/
def isTitleChar (_c : Char) : Bool := false

theorem char_isUpper_iff (c : Char) : c.isUpper = true ↔ (65 ≤ c.toNat ∧ c.toNat ≤ 90) := by
  simp only [Char.isUpper, Bool.and_eq_true, decide_eq_true_eq]
  exact Iff.rfl

theorem char_isLower_iff (c : Char) : c.isLower = true ↔ (97 ≤ c.toNat ∧ c.toNat ≤ 122) := by
  simp only [Char.isLower, Bool.and_eq_true, decide_eq_true_eq]
  exact Iff.rfl

theorem char_eq_iff_toNat (c d : Char) : c = d ↔ c.toNat = d.toNat := by
  constructor
  · intro h; rw [h]
  · intro h
    apply Char.ext
    exact UInt32.ext h

theorem plain_not_upper {c : Char} (h : plainSnakeChar c = true) : c.isUpper = false := by
  simp only [plainSnakeChar, Bool.or_eq_true, Bool.and_eq_true, decide_eq_true_eq] at h
  rw [← Bool.not_eq_true, char_isUpper_iff]
  omega

theorem plain_toLower {c : Char} (h : plainSnakeChar c = true) : c.toLower = c := by
  simp only [plainSnakeChar, Bool.or_eq_true, Bool.and_eq_true, decide_eq_true_eq] at h
  unfold Char.toLower
  rw [if_neg]
  omega

theorem plain_ne_underscore {c : Char} (h : plainSnakeChar c = true) : c ≠ '_' := by
  simp only [plainSnakeChar, Bool.or_eq_true, Bool.and_eq_true, decide_eq_true_eq] at h
  rw [Ne, char_eq_iff_toNat]
  have h95 : ('_' : Char).toNat = 95 := by decide
  rw [h95]
  omega

theorem upper_not_lower {c : Char} (h : c.isUpper = true) : c.isLower = false := by
  rw [char_isUpper_iff] at h
  rw [← Bool.not_eq_true, char_isLower_iff]
  omega

theorem upper_ne_underscore {c : Char} (h : c.isUpper = true) : c ≠ '_' := by
  rw [char_isUpper_iff] at h
  rw [Ne, char_eq_iff_toNat]
  have h95 : ('_' : Char).toNat = 95 := by decide
  rw [h95]
  omega

theorem lower_plain {c : Char} (h : c.isLower = true) : plainSnakeChar c = true := by
  rw [char_isLower_iff] at h
  simp only [plainSnakeChar, Bool.or_eq_true, Bool.and_eq_true, decide_eq_true_eq]
  omega

/-! ## The snake-case normalizer (`snakifier` / `toSnakeCase`) -/

/-- Source `snakeCaseSeparator` from the source. -/
def snakeCaseSeparator : Char := '_'

/-- State of the scanner: the builder `output`, whether the scanner is inside a
run of uppercase/titlecase letters, and the current `token`. -/
structure Snakifier where
  output : List Char
  parsingUpper : Bool
  token : List Char
deriving Repr, DecidableEq

/-- Source `snakifier.flush`: append the pending token to the output, preceded by a
separator when the output is non-empty. -/
def Snakifier.flush (s : Snakifier) : Snakifier :=
  if s.token.isEmpty then s
  else
    { s with
      output := (if s.output.isEmpty then s.output else s.output ++ [snakeCaseSeparator]) ++ s.token
      token := [] }

/-- Source `snakifier.push`: feed one rune to the scanner. -/
def Snakifier.push (s : Snakifier) (r : Char) : Snakifier :=
  if r = snakeCaseSeparator then
    s.flush
  else if s.token.isEmpty then
    { s with parsingUpper := r.isUpper || isTitleChar r, token := [r.toLower] }
  else if r.isLower then
    let s :=
      if s.parsingUpper then
        let s := { s with parsingUpper := false }
        if s.token.length > 1 then
          let last := s.token.getLastD r
          let s := { s with token := s.token.dropLast }
          let s := s.flush
          { s with token := s.token ++ [last] }
        else s
      else s
    { s with token := s.token ++ [r] }
  else if r.isUpper || isTitleChar r then
    let s :=
      if !s.parsingUpper then
        let s := s.flush
        { s with parsingUpper := true }
      else s
    { s with token := s.token ++ [r.toLower] }
  else
    { s with token := s.token ++ [r] }

/-- Source `toSnakeCase` on the rune sequence. -/
def toSnakeCaseL (l : List Char) : List Char :=
  ((l.foldl Snakifier.push ⟨[], false, []⟩).flush).output

/-- Source `toSnakeCase`: convert a golang identifier into snake case. -/
def toSnakeCase (identifier : String) : String :=
  if identifier.isEmpty then identifier
  else ⟨toSnakeCaseL identifier.data⟩

/-! ## Metric name resolution (`MetricName`) -/

/-- A Go struct tag, modelled as an association list from tag key to value;
`reflect.StructTag.Lookup` returns the first binding of a key. -/
abbrev TagMap := List (String × String)

/-- Source `reflect.StructTag.Lookup`. -/
def tagLookup (tags : TagMap) (key : String) : Option String :=
  match tags with
  | [] => none
  | (k, v) :: rest => if k = key then some v else tagLookup rest key

/-- Source `reflect.StructTag.Get`: the looked-up value, or `""` when absent. -/
def tagGet (tags : TagMap) (key : String) : String :=
  (tagLookup tags key).getD ""

/-- Source `TagName` from the source. -/
def TagName : String := "name"

/-- Model of Go `strings.Replace(s, "*", new, 1)`: replace the first occurrence
of `'*'` (the wildcard is a single rune, so rune-by-rune scanning is exact). -/
def replaceFirstStar (s : List Char) (new : List Char) : List Char :=
  match s with
  | [] => []
  | c :: rest => if c = '*' then new ++ rest else c :: replaceFirstStar rest new

/-- Source `MetricName`: the metric name for a struct field with name `fieldName` and
tag `tags`, per `metricName.go`. -/
def MetricName (fieldName : String) (tags : TagMap) : String :=
  let snakeCase := toSnakeCase fieldName
  let name : String := ⟨replaceFirstStar (tagGet tags TagName).data snakeCase.data⟩
  if name.isEmpty then snakeCase else name

/-! ## Auxiliary definitions used by the verification -/

/-- Joining an output and a trailing token the way `flush` does. -/
def glueTok (o t : List Char) : List Char :=
  if t.isEmpty then o else if o.isEmpty then t else o ++ '_' :: t

/-! ## The already-snake-case input class -/

/-- Scanning predicate for the already-snake-case class: `b` records whether the
previous character was a plain character (so an underscore is legal here).
Underscores must be preceded by a plain character (`b = true`), must not be
trailing, and must be followed by a plain character; all other characters must
be plain (lowercase ASCII letters or digits). -/
def snakeShapeFrom : Bool → List Char → Bool
  | _, [] => true
  | b, c :: rest =>
    if c = '_' then b && !rest.isEmpty && snakeShapeFrom false rest
    else plainSnakeChar c && snakeShapeFrom true rest

/-- Strings consisting only of lowercase ASCII letters, digits, and single
(non-leading, non-trailing, non-consecutive) underscores. -/
def snakeShape (l : List Char) : Bool := snakeShapeFrom false l

/-! ## String parsing helpers (models of Go standard library functions) -/

/-- ASCII fragment of Go `unicode.IsSpace`, as used by `strings.TrimSpace`. -/
def isGoSpace (c : Char) : Bool :=
  c = ' ' || c = '\t' || c = '\n' || c = '\x0b' || c = '\x0c' || c = '\r'

/-- Model of Go `strings.TrimSpace` on the rune sequence. -/
def trimSpaceL (l : List Char) : List Char :=
  ((l.dropWhile isGoSpace).reverse.dropWhile isGoSpace).reverse

/-- Model of Go `strings.TrimSpace`. -/
def trimSpace (s : String) : String := ⟨trimSpaceL s.data⟩

/-- Model of Go `strings.Split(s, sep)` for a single-rune separator: `n`
separators yield `n+1` (possibly empty) parts; the empty string yields one
empty part. -/
def splitOnChar (sep : Char) : List Char → List (List Char)
  | [] => [[]]
  | c :: rest =>
    match splitOnChar sep rest with
    | [] => [[c]]
    | p :: ps => if c = sep then [] :: p :: ps else (c :: p) :: ps

/-- Source `strings.Split` wrapped on `String`. -/
def splitString (sep : Char) (s : String) : List String :=
  (splitOnChar sep s.data).map (fun l => ⟨l⟩)

/-- ASCII digit. -/
def isDigitChar (c : Char) : Bool := 48 ≤ c.toNat && c.toNat ≤ 57

/-- Numeric value of a digit string (most significant first). -/
def digitsToNat (ds : List Char) : ℕ :=
  ds.foldl (fun acc c => 10 * acc + (c.toNat - 48)) 0

/-- Model of the decimal fragment of Go `strconv.ParseFloat(s, 64)`: optional
sign, integer digits, optional fraction, optional decimal exponent; at least
one digit must be present in the mantissa.  The parsed value is represented
exactly as a rational.  (`Inf`/`NaN`/hexadecimal floats and digit-group
underscores are outside the modelled fragment; the engine's tag values are
plain decimals.)  Returns `none` where Go returns a non-nil error. -/
def parseFloat? (s : String) : Option ℚ :=
  let cs := s.data
  let signAndRest : ℚ × List Char :=
    match cs with
    | '+' :: rest => (1, rest)
    | '-' :: rest => (-1, rest)
    | _ => (1, cs)
  let sign := signAndRest.1
  let cs1 := signAndRest.2
  let intPart := cs1.takeWhile isDigitChar
  let cs2 := cs1.dropWhile isDigitChar
  let fracAndRest : List Char × List Char :=
    match cs2 with
    | '.' :: rest => (rest.takeWhile isDigitChar, rest.dropWhile isDigitChar)
    | _ => ([], cs2)
  let fracPart := fracAndRest.1
  let cs3 := fracAndRest.2
  if intPart.isEmpty && fracPart.isEmpty then none
  else
    let mantissa : ℚ :=
      (digitsToNat intPart : ℚ) + (digitsToNat fracPart : ℚ) / (10 : ℚ) ^ fracPart.length
    match cs3 with
    | [] => some (sign * mantissa)
    | e :: rest =>
      if e = 'e' || e = 'E' then
        let esignAndRest : ℤ × List Char :=
          match rest with
          | '+' :: r => (1, r)
          | '-' :: r => (-1, r)
          | _ => (1, rest)
        let eDigits := esignAndRest.2.takeWhile isDigitChar
        let eRest := esignAndRest.2.dropWhile isDigitChar
        if eDigits.isEmpty || !eRest.isEmpty then none
        else some (sign * mantissa * (10 : ℚ) ^ (esignAndRest.1 * (digitsToNat eDigits : ℤ)))
      else none

/-- Model of Go `strconv.ParseUint(s, 10, 32)`: a non-empty all-digit string
whose value fits in 32 bits; no sign is accepted.  Returns `none` where Go
returns a non-nil error. -/
def parseUint32? (s : String) : Option ℕ :=
  if s.data.isEmpty then none
  else if s.data.all isDigitChar && digitsToNat s.data < 2 ^ 32 then some (digitsToNat s.data)
  else none

/-- The time units understood by Go `time.ParseDuration`, in nanoseconds. -/
def durationUnits : List (String × ℚ) :=
  [("ns", 1), ("us", 1000), ("µs", 1000), ("μs", 1000), ("ms", 1000000),
   ("s", 1000000000), ("m", 60000000000), ("h", 3600000000000)]

/-- One or more `number unit` chunks of Go `time.ParseDuration`, with the list
length as structural fuel (each chunk consumes at least one character). -/
def parseDurChunks : ℕ → List Char → Option ℚ
  | _, [] => some 0
  | 0, _ => none
  | fuel + 1, cs =>
    let ip := cs.takeWhile isDigitChar
    let cs1 := cs.dropWhile isDigitChar
    let fracAndRest : List Char × List Char :=
      match cs1 with
      | '.' :: r => (r.takeWhile isDigitChar, r.dropWhile isDigitChar)
      | _ => ([], cs1)
    let fp := fracAndRest.1
    let cs2 := fracAndRest.2
    if ip.isEmpty && fp.isEmpty then none
    else
      let unitChars := cs2.takeWhile (fun c => !isDigitChar c && c ≠ '.')
      let rest := cs2.dropWhile (fun c => !isDigitChar c && c ≠ '.')
      match durationUnits.lookup (⟨unitChars⟩ : String) with
      | none => none
      | some mult =>
        match parseDurChunks fuel rest with
        | none => none
        | some v =>
          some (((digitsToNat ip : ℚ) + (digitsToNat fp : ℚ) / (10 : ℚ) ^ fp.length) * mult + v)

/-- Model of Go `time.ParseDuration` (decimal `number unit` chunks with an
optional leading sign; the literal `"0"` needs no unit).  The result is in
nanoseconds, represented exactly as a rational.  Returns `none` where Go
returns a non-nil error. -/
def parseDuration? (s : String) : Option ℚ :=
  let signAndRest : ℚ × List Char :=
    match s.data with
    | '+' :: r => (1, r)
    | '-' :: r => (-1, r)
    | _ => (1, s.data)
  let cs := signAndRest.2
  if cs = ['0'] then some 0
  else if cs.isEmpty then none
  else (parseDurChunks cs.length cs).map (fun v => signAndRest.1 * v)

/-! ## Struct field tags recognized by touchbundle (`metricField.go`) -/

/-- Source `TagTouchstone`: setting this tag to `"-"` makes the field ignored. -/
def TagTouchstone : String := "touchstone"

/-- Source `TagNamespace`. -/
def TagNamespace : String := "namespace"

/-- Source `TagSubsystem`. -/
def TagSubsystem : String := "subsystem"

/-- Source `TagHelp`. -/
def TagHelp : String := "help"

/-- Source `TagBuckets`. -/
def TagBuckets : String := "buckets"

/-- Source `TagObjectives`. -/
def TagObjectives : String := "objectives"

/-- Source `TagMaxAge`. -/
def TagMaxAge : String := "maxAge"

/-- Source `TagAgeBuckets`. -/
def TagAgeBuckets : String := "ageBuckets"

/-- Source `TagBufCap`. -/
def TagBufCap : String := "bufCap"

/-- Source `TagLabelNames`. -/
def TagLabelNames : String := "labelNames"

/-- Source `TagType`. -/
def TagType : String := "type"

/-- Source `TypeHistogram`. -/
def TypeHistogram : String := "histogram"

/-- Source `TypeSummary`. -/
def TypeSummary : String := "summary"

/-- Source `histogramTagNames`: tags exclusive to histograms. -/
def histogramTagNames : List String := [TagBuckets]

/-- Source `summaryTagNames`: tags exclusive to summaries. -/
def summaryTagNames : List String := [TagObjectives, TagMaxAge, TagAgeBuckets, TagBufCap]

/-- Source `observerTagNames`: the union of histogram-only and summary-only tags. -/
def observerTagNames : List String := histogramTagNames ++ summaryTagNames

/-! ## Metric fields and errors -/

/-- The static type of a bundle struct field, as matched by the `switch` in
`metricField.newOpts`: the eight concrete prometheus metric-handle types, the
two generic observer types, and `other` for any type that matches no case. -/
inductive FType
  | counter
  | counterVec
  | gauge
  | gaugeVec
  | histogram
  | histogramVec
  | summary
  | summaryVec
  | observer
  | observerVec
  | other
deriving Repr, DecidableEq

/-- One struct field of a bundle: its name, Go package path (non-empty exactly
for unexported fields), whether it is embedded/anonymous, its static type, and
its struct tag.  This is `metricField` (a `reflect.StructField`). -/
structure MetricField where
  fname : String
  pkgPath : String
  anonymous : Bool
  ftype : FType
  tags : TagMap
deriving Repr, DecidableEq

/-- Source `metricField.skip`: unexported, embedded, or explicitly ignored fields. -/
def MetricField.skip (mf : MetricField) : Bool :=
  mf.pkgPath.length > 0 || mf.anonymous || tagGet mf.tags TagTouchstone == "-"

/-- Source `metricField.name`: the metric name for this field. -/
def MetricField.name (mf : MetricField) : String :=
  MetricName mf.fname mf.tags

/-- Opaque errors returned by the Go standard library parsers the engine calls;
they carry the offending input. -/
inductive GoErr
  | parseFloatError (input : String)
  | parseUintError (input : String)
  | parseDurationError (input : String)
deriving Repr, DecidableEq

/-- The messages a `FieldError` can carry, one constructor per `fmt.Sprintf`
format string used in `metricField.go` (the formats are pairwise
non-unifiable). -/
inductive ErrMsg
  | notAllowed (tag : String)
  | ambiguous (tag : String)
  | invalidObjectiveEntry (entry : String)
  | invalidObserverType (value : String)
  | labelNamesRequired
  | causeMessage (cause : GoErr)
deriving Repr, DecidableEq

/-- Source `FieldError`: an error attributed to a struct field (name and static type),
with a message and an optional wrapped cause. -/
structure FieldError where
  fieldName : String
  fieldType : FType
  message : ErrMsg
  cause : Option GoErr
deriving Repr, DecidableEq

/-- An element of a `multierr` aggregate: either a `*FieldError` or a raw
(unwrapped) error appended directly, as `metricField.buckets` does with
`strconv` errors and `populate` does with factory errors. -/
inductive Err
  | field (fe : FieldError)
  | raw (e : GoErr)
deriving Repr, DecidableEq

/-- Source `metricField.fieldErrorf`. -/
def MetricField.fieldErrorf (mf : MetricField) (m : ErrMsg) : Err :=
  .field ⟨mf.fname, mf.ftype, m, none⟩

/-- Source `metricField.wrapError`: wrap a cause in a `FieldError` whose message is the
cause's message. -/
def MetricField.wrapError (mf : MetricField) (cause : GoErr) : Err :=
  .field ⟨mf.fname, mf.ftype, .causeMessage cause, some cause⟩

/-- Source `metricField.appendError`: append the wrapped cause, if there is one. -/
def MetricField.appendError (mf : MetricField) (appendErr : List Err) (cause : Option GoErr) : List Err :=
  match cause with
  | none => appendErr
  | some c => appendErr ++ [mf.wrapError c]

/-- Source `reflect.StructTag.Lookup` succeeds, i.e. the tag key is present. -/
def tagPresent (mf : MetricField) (tag : String) : Bool :=
  (tagLookup mf.tags tag).isSome

/-- Source `metricField.checkInvalidTagNames`: one error per present offending tag;
`mk` stands for the format string. -/
def MetricField.checkInvalidTagNames (mf : MetricField) (appendErr : List Err)
    (mk : String → ErrMsg) (tagNames : List String) : List Err :=
  tagNames.foldl
    (fun err tagName =>
      if tagPresent mf tagName then err ++ [.field ⟨mf.fname, mf.ftype, mk tagName, none⟩]
      else err)
    appendErr

/-- Source `metricField.checkTagNotAllowed`. -/
def MetricField.checkTagNotAllowed (mf : MetricField) (appendErr : List Err)
    (tagNames : List String) : List Err :=
  mf.checkInvalidTagNames appendErr ErrMsg.notAllowed tagNames

/-- Source `metricField.checkTagAmbiguous`. -/
def MetricField.checkTagAmbiguous (mf : MetricField) (appendErr : List Err)
    (tagNames : List String) : List Err :=
  mf.checkInvalidTagNames appendErr ErrMsg.ambiguous tagNames

/-- Source `metricField.hasAnyTagNames`. -/
def MetricField.hasAnyTagNames (mf : MetricField) (tagNames : List String) : Bool :=
  tagNames.any (tagPresent mf)

/-! ## Metric construction options -/

/-- The fields shared by every prometheus `*Opts` struct the engine fills in. -/
structure CommonOpts where
  oname : String
  help : String
  nspace : String
  subsystem : String
deriving Repr, DecidableEq

/-- The options value handed to the factory: one case per prometheus `*Opts`
type the engine constructs.  `float64` values are exact rationals; a `none`
bucket list / objectives map is Go `nil`. -/
inductive Opts
  | counter (o : CommonOpts)
  | gauge (o : CommonOpts)
  | histogram (o : CommonOpts) (buckets : Option (List ℚ))
  | summary (o : CommonOpts) (objectives : Option (List (ℚ × ℚ)))
      (maxAge : ℚ) (ageBuckets : ℕ) (bufCap : ℕ)
deriving Repr, DecidableEq

/-- Whether an options value is a summary options value. -/
def Opts.isSummary : Opts → Bool
  | .summary _ _ _ _ _ => true
  | _ => false

/-- Whether an options value is a histogram options value. -/
def Opts.isHistogram : Opts → Bool
  | .histogram _ _ => true
  | _ => false

/-- Source `metricField.help`. -/
def MetricField.help (mf : MetricField) : String := tagGet mf.tags TagHelp

/-- Source `metricField.namespace`. -/
def MetricField.nspace (mf : MetricField) : String := tagGet mf.tags TagNamespace

/-- Source `metricField.subsystem`. -/
def MetricField.subsystem (mf : MetricField) : String := tagGet mf.tags TagSubsystem

/-- The `Name`/`Help`/`Namespace`/`Subsystem` fields every builder sets. -/
def MetricField.commonOpts (mf : MetricField) : CommonOpts :=
  ⟨mf.name, mf.help, mf.nspace, mf.subsystem⟩

/-- Source `metricField.buckets`: parse the comma-delimited bucket list.  Entries that
fail to parse contribute the raw `strconv` error (not wrapped in a
`FieldError`) and leave `0` at their position, exactly as the source loop
does. -/
def MetricField.buckets (mf : MetricField) : Option (List ℚ) × List Err :=
  let tagValue := tagGet mf.tags TagBuckets
  if tagValue.isEmpty then (none, [])
  else
    let tagValues := splitString ',' tagValue
    (some (tagValues.map (fun v => (parseFloat? (trimSpace v)).getD 0)),
      tagValues.foldl
        (fun errs v =>
          match parseFloat? (trimSpace v) with
          | some _ => errs
          | none => errs ++ [Err.raw (.parseFloatError (trimSpace v))])
        [])

/-- Go map assignment `m[k] = v`: replace the binding if the key is present,
otherwise add it. -/
def mapUpsert (m : List (ℚ × ℚ)) (k v : ℚ) : List (ℚ × ℚ) :=
  if m.any (fun p => p.1 = k) then m.map (fun p => if p.1 = k then (k, v) else p)
  else m ++ [(k, v)]

/-- The body of the loop in `metricField.objectives` for one comma-separated
entry: a malformed `quantile:error` structure contributes one `FieldError`;
otherwise each side is parsed and each failure contributes one wrapped error;
the pair is stored iff the error side parses (a failed quantile side parses as
`0`, mirroring `strconv.ParseFloat`'s zero return on error). -/
def objectivesEntryStep (mf : MetricField) (acc : List (ℚ × ℚ) × List Err)
    (entry : String) : List (ℚ × ℚ) × List Err :=
  match splitString ':' entry with
  | [k, v] =>
    let key? := parseFloat? (trimSpace k)
    let errs1 := mf.appendError acc.2
      (match key? with | some _ => none | none => some (.parseFloatError (trimSpace k)))
    let value? := parseFloat? (trimSpace v)
    let errs2 := mf.appendError errs1
      (match value? with | some _ => none | none => some (.parseFloatError (trimSpace v)))
    match value? with
    | some value => (mapUpsert acc.1 (key?.getD 0) value, errs2)
    | none => (acc.1, errs2)
  | _ => (acc.1, acc.2 ++ [mf.fieldErrorf (.invalidObjectiveEntry entry)])

/-- Source `metricField.objectives`: parse the `objectives` tag; `none` when the tag
is empty or absent. -/
def MetricField.objectives (mf : MetricField) (appendErr : List Err) :
    Option (List (ℚ × ℚ)) × List Err :=
  let tagValue := tagGet mf.tags TagObjectives
  if tagValue.isEmpty then (none, appendErr)
  else
    let r := (splitString ',' tagValue).foldl (objectivesEntryStep mf) ([], appendErr)
    (some r.1, r.2)

/-- Source `metricField.parseUint32`: parse a `uint32`-valued tag; absent means `0`. -/
def MetricField.parseUint32Tag (mf : MetricField) (tagName : String) : ℕ × Option GoErr :=
  let tagValue := tagGet mf.tags tagName
  if tagValue.isEmpty then (0, none)
  else
    match parseUint32? tagValue with
    | some v => (v, none)
    | none => (0, some (.parseUintError tagValue))

/-- Source `metricField.ageBuckets`. -/
def MetricField.ageBuckets (mf : MetricField) (appendErr : List Err) : ℕ × List Err :=
  let r := mf.parseUint32Tag TagAgeBuckets
  (r.1, mf.appendError appendErr r.2)

/-- Source `metricField.bufCap`. -/
def MetricField.bufCap (mf : MetricField) (appendErr : List Err) : ℕ × List Err :=
  let r := mf.parseUint32Tag TagBufCap
  (r.1, mf.appendError appendErr r.2)

/-- Source `metricField.parseDuration`: parse a duration-valued tag; absent means `0`. -/
def MetricField.parseDurationTag (mf : MetricField) (tagName : String) : ℚ × Option GoErr :=
  let tagValue := tagGet mf.tags tagName
  if tagValue.isEmpty then (0, none)
  else
    match parseDuration? tagValue with
    | some v => (v, none)
    | none => (0, some (.parseDurationError tagValue))

/-- Source `metricField.maxAge`. -/
def MetricField.maxAge (mf : MetricField) (appendErr : List Err) : ℚ × List Err :=
  let r := mf.parseDurationTag TagMaxAge
  (r.1, mf.appendError appendErr r.2)

/-! ## Per-type options builders (`newXxxOpts` / `newOpts`) -/

/-- Source `metricField.newCounterOpts`: counter options; all observer tags are
disallowed on counters. -/
def MetricField.newCounterOpts (mf : MetricField) : Opts × List Err :=
  (.counter mf.commonOpts, mf.checkTagNotAllowed [] observerTagNames)

/-- Source `metricField.newGaugeOpts`: gauge options; all observer tags are disallowed
on gauges. -/
def MetricField.newGaugeOpts (mf : MetricField) : Opts × List Err :=
  (.gauge mf.commonOpts, mf.checkTagNotAllowed [] observerTagNames)

/-- Source `metricField.newHistogramOpts`. -/
def MetricField.newHistogramOpts (mf : MetricField) : Opts × List Err :=
  let r := mf.buckets
  (.histogram mf.commonOpts r.1, r.2)

/-- Source `metricField.newSummaryOpts`. -/
def MetricField.newSummaryOpts (mf : MetricField) : Opts × List Err :=
  let ro := mf.objectives []
  let rm := mf.maxAge ro.2
  let ra := mf.ageBuckets rm.2
  let rb := mf.bufCap ra.2
  (.summary mf.commonOpts ro.1 rm.1 ra.1 rb.1, rb.2)

/-- Source `metricField.newObserverOpts`: resolve histogram-vs-summary from the
explicit `type` tag if present (an unrecognized non-empty value is an error),
else autodetect from summary-only tag presence, defaulting to histogram; the
exclusive tags of whichever type was not chosen are flagged ambiguous. -/
def MetricField.newObserverOpts (mf : MetricField) : Option Opts × List Err :=
  let metricType := tagGet mf.tags TagType
  let step : Option Opts × List Err × List String :=
    if metricType = TypeHistogram then
      let r := mf.newHistogramOpts
      (some r.1, r.2, summaryTagNames)
    else if metricType = TypeSummary then
      let r := mf.newSummaryOpts
      (some r.1, r.2, histogramTagNames)
    else if metricType.length > 0 then
      (none, [mf.fieldErrorf (.invalidObserverType metricType)], [])
    else if mf.hasAnyTagNames summaryTagNames then
      let r := mf.newSummaryOpts
      (some r.1, r.2, histogramTagNames)
    else
      let r := mf.newHistogramOpts
      (some r.1, r.2, summaryTagNames)
  (step.1, mf.checkTagAmbiguous step.2.1 step.2.2)

/-- Source `metricField.labelNames`: comma-split and whitespace-trim the `labelNames`
tag; a single empty resulting entry (absent or empty tag) is an error. -/
def MetricField.labelNames (mf : MetricField) (appendErr : List Err) :
    List String × List Err :=
  let values := (splitString ',' (tagGet mf.tags TagLabelNames)).map trimSpace
  let err :=
    match values with
    | [x] =>
      if x.isEmpty then appendErr ++ [mf.fieldErrorf .labelNamesRequired] else appendErr
    | _ => appendErr
  (values, err)

/-- The result of `metricField.newOpts`: the options (Go `interface{}`, `nil`
when the field's type matches no case or the observer type tag is invalid),
the label names, and the aggregated error. -/
structure OptsResult where
  opts : Option Opts
  labels : List String
  errs : List Err
deriving Repr, DecidableEq

/-- Source `metricField.newOpts`: the per-type dispatch. -/
def MetricField.newOpts (mf : MetricField) : OptsResult :=
  match mf.ftype with
  | .counter =>
    let r := mf.newCounterOpts
    ⟨some r.1, [], mf.checkTagNotAllowed r.2 [TagType, TagLabelNames]⟩
  | .counterVec =>
    let r := mf.newCounterOpts
    let err := mf.checkTagNotAllowed r.2 [TagType]
    let rl := mf.labelNames err
    ⟨some r.1, rl.1, rl.2⟩
  | .gauge =>
    let r := mf.newGaugeOpts
    ⟨some r.1, [], mf.checkTagNotAllowed r.2 [TagType, TagLabelNames]⟩
  | .gaugeVec =>
    let r := mf.newGaugeOpts
    let err := mf.checkTagNotAllowed r.2 [TagType]
    let rl := mf.labelNames err
    ⟨some r.1, rl.1, rl.2⟩
  | .histogram =>
    let r := mf.newHistogramOpts
    let err := mf.checkTagNotAllowed r.2 [TagType, TagLabelNames]
    ⟨some r.1, [], mf.checkTagNotAllowed err summaryTagNames⟩
  | .histogramVec =>
    let r := mf.newHistogramOpts
    let err := mf.checkTagNotAllowed r.2 [TagType]
    let err2 := mf.checkTagNotAllowed err summaryTagNames
    let rl := mf.labelNames err2
    ⟨some r.1, rl.1, rl.2⟩
  | .summary =>
    let r := mf.newSummaryOpts
    let err := mf.checkTagNotAllowed r.2 [TagType, TagLabelNames]
    ⟨some r.1, [], mf.checkTagNotAllowed err histogramTagNames⟩
  | .summaryVec =>
    let r := mf.newSummaryOpts
    let err := mf.checkTagNotAllowed r.2 [TagType]
    let err2 := mf.checkTagNotAllowed err histogramTagNames
    let rl := mf.labelNames err2
    ⟨some r.1, rl.1, rl.2⟩
  | .observer =>
    let r := mf.newObserverOpts
    ⟨r.1, [], mf.checkTagNotAllowed r.2 [TagLabelNames]⟩
  | .observerVec =>
    let r := mf.newObserverOpts
    let rl := mf.labelNames r.2
    ⟨r.1, rl.1, rl.2⟩
  | .other => ⟨none, [], []⟩

/-! ## The bundle populator (`bundle.go`) -/

/-- A created metric handle, identified by the construction call that produced
it (the factory is an external collaborator; its handles are opaque). -/
abbrev Metric := Opts × List String

/-- A metric factory: `factory.New` when the label list is empty,
`factory.NewVec` otherwise.  Its errors are opaque to the engine. -/
abbrev Factory := Opts → List String → Except Err Metric

/-- The observable outcome of `populate`: the aggregated error list, the
assignments performed (field index and handle), and the factory calls made. -/
structure PopResult where
  errs : List Err
  assigned : List (ℕ × Metric)
  calls : List (Opts × List String)
deriving Repr, DecidableEq

/-- Source `populate`: walk the fields in declaration order, skipping skippable
fields, merging each field's errors, calling the factory only when usable
options and no field error were produced, and assigning the handle on factory
success.  `i` is the index of the first field in `fields`. -/
def populateFrom (factory : Factory) : ℕ → List MetricField → PopResult
  | _, [] => ⟨[], [], []⟩
  | i, f :: rest =>
    if f.skip then populateFrom factory (i + 1) rest
    else if (f.newOpts).opts.isNone || !(f.newOpts).errs.isEmpty then
      ⟨(f.newOpts).errs ++ (populateFrom factory (i + 1) rest).errs,
        (populateFrom factory (i + 1) rest).assigned,
        (populateFrom factory (i + 1) rest).calls⟩
    else
      match (f.newOpts).opts with
      | none =>
        ⟨(f.newOpts).errs ++ (populateFrom factory (i + 1) rest).errs,
          (populateFrom factory (i + 1) rest).assigned,
          (populateFrom factory (i + 1) rest).calls⟩
      | some o =>
        match factory o (f.newOpts).labels with
        | .error fe =>
          ⟨(f.newOpts).errs ++ [fe] ++ (populateFrom factory (i + 1) rest).errs,
            (populateFrom factory (i + 1) rest).assigned,
            (o, (f.newOpts).labels) :: (populateFrom factory (i + 1) rest).calls⟩
        | .ok m =>
          ⟨(f.newOpts).errs ++ (populateFrom factory (i + 1) rest).errs,
            (i, m) :: (populateFrom factory (i + 1) rest).assigned,
            (o, (f.newOpts).labels) :: (populateFrom factory (i + 1) rest).calls⟩

/-- The dynamic shape of the `Bundle` argument (`interface{}`) passed to
`Populate`: a struct value, a (possibly nil) pointer to a struct, a non-struct
value, or a (possibly nil) pointer to a non-struct. -/
inductive BundleArg
  | structVal (fields : List MetricField)
  | structPtr (fields : Option (List MetricField))
  | intVal
  | intPtr (isNil : Bool)
deriving Repr, DecidableEq

/-- The reflection kinds `Populate` inspects. -/
inductive RKind
  | rstruct
  | rptr
  | rint
deriving Repr, DecidableEq

/-- A `reflect.Value` as observed by `Populate`: its kind, addressability, and
(for struct kinds) its fields. -/
structure RValue where
  kind : RKind
  canAddr : Bool
  fields : List MetricField
deriving Repr, DecidableEq

/-- Source `reflect.ValueOf`: a value unpacked from an interface is never
addressable. -/
def reflectValueOf : BundleArg → RValue
  | .structVal fs => ⟨.rstruct, false, fs⟩
  | .structPtr _ => ⟨.rptr, false, []⟩
  | .intVal => ⟨.rint, false, []⟩
  | .intPtr _ => ⟨.rptr, false, []⟩

/-- Source `reflect.Value.IsNil` on the pointer kinds. -/
def bundleIsNilPtr : BundleArg → Bool
  | .structPtr none => true
  | .intPtr true => true
  | _ => false

/-- Source `reflect.Value.Elem` of a non-nil pointer: the pointed-to value, which is
addressable. -/
def bundleElem : BundleArg → RValue
  | .structPtr (some fs) => ⟨.rstruct, true, fs⟩
  | .intPtr _ => ⟨.rint, true, []⟩
  | a => reflectValueOf a

/-- The `%T` verb of the error message, abstracted over the argument shapes of
the model. -/
def bundleTypeName : BundleArg → String
  | .structVal _ => "struct"
  | .structPtr _ => "*struct"
  | .intVal => "int"
  | .intPtr _ => "*int"

/-- The structural-rejection message of `Populate`. -/
def invalidBundleMessage (b : BundleArg) : String :=
  "'" ++ bundleTypeName b ++ "' is not a valid bundle.  It must be a non-nil pointer to a struct."

/-- Source `Populate`: dereference a non-nil pointer argument, reject anything that is
not an addressable struct, and otherwise run `populate`. -/
def Populate (factory : Factory) (b : BundleArg) : Except String PopResult :=
  let bv :=
    if (reflectValueOf b).kind = RKind.rptr ∧ bundleIsNilPtr b = false then bundleElem b
    else reflectValueOf b
  if bv.kind = RKind.rstruct ∧ bv.canAddr = true then .ok (populateFrom factory 0 bv.fields)
  else .error (invalidBundleMessage b)

/-! ## Derived notions used to state the claims -/

/-- The field types that require label names (the vector metric handles). -/
def vectorFTypes : List FType :=
  [.counterVec, .gaugeVec, .histogramVec, .summaryVec, .observerVec]

/-- The tags whose presence `newOpts` rejects on a scalar counter field:
the observer tags checked by `newCounterOpts` plus the `type` and
`labelNames` tags checked in the `counterType` case. -/
def counterDisallowedTags : List String :=
  observerTagNames ++ [TagType, TagLabelNames]

/-- The comma-split, whitespace-trimmed `labelNames` tag value is a single
empty entry (the tag is absent or effectively empty). -/
def labelsDegenerate (mf : MetricField) : Bool :=
  match (splitString ',' (tagGet mf.tags TagLabelNames)).map trimSpace with
  | [x] => x.isEmpty
  | _ => false

/-- The error raised for vector fields lacking label names. -/
def labelNamesRequiredErr (mf : MetricField) : Err :=
  mf.fieldErrorf .labelNamesRequired

/-- Whether an error is the missing-label-names error (by message). -/
def Err.isLabelReq : Err → Bool
  | .field fe => fe.message = ErrMsg.labelNamesRequired
  | .raw _ => false

/-- An error is attributable to the given field: every `FieldError` carries the
field's name and static type (raw errors carry no attribution). -/
def errBelongs (mf : MetricField) : Err → Prop
  | .field fe => fe.fieldName = mf.fname ∧ fe.fieldType = mf.ftype
  | .raw _ => True

/-- A processed (non-skipped) field whose tag processing produced at least one
error. -/
def fieldInvalid (mf : MetricField) : Bool :=
  !mf.skip && !(mf.newOpts).errs.isEmpty

/-- A processed (non-skipped) recognized metric field with no errors: `populate`
must construct and assign it. -/
def fieldValid (mf : MetricField) : Bool :=
  !mf.skip && (mf.newOpts).errs.isEmpty && (mf.newOpts).opts.isSome

/-- Refinement (spec-side) restatement: the errors one comma-separated
objectives entry contributes. -/
def objectivesSpecEntryErrs (mf : MetricField) (entry : String) : List Err :=
  match splitString ':' entry with
  | [k, v] =>
    (match parseFloat? (trimSpace k) with
      | some _ => []
      | none => [mf.wrapError (.parseFloatError (trimSpace k))]) ++
    (match parseFloat? (trimSpace v) with
      | some _ => []
      | none => [mf.wrapError (.parseFloatError (trimSpace v))])
  | _ => [mf.fieldErrorf (.invalidObjectiveEntry entry)]

/-- Refinement (spec-side) restatement: the map insertion one objectives entry
performs (nothing unless the structure is a pair and the error side parses). -/
def objectivesSpecStep (m : List (ℚ × ℚ)) (entry : String) : List (ℚ × ℚ) :=
  match splitString ':' entry with
  | [k, v] =>
    match parseFloat? (trimSpace v) with
    | some value => mapUpsert m ((parseFloat? (trimSpace k)).getD 0) value
    | none => m
  | _ => m

/-! ## Concrete inputs used by witnesses and counterexamples -/

/-- A factory that always succeeds, returning a handle identifying the call. -/
def okFactory : Factory := fun o ls => .ok (o, ls)

/-- A scalar counter field carrying a `buckets` tag. -/
def counterBucketsField : MetricField :=
  ⟨"MyCounter", "", false, .counter, [(TagBuckets, "1,2.5")]⟩

/-- A generic observer field with an unrecognized `type` tag value and an
`objectives` tag. -/
def bogusObserverField : MetricField :=
  ⟨"Obs", "", false, .observer, [(TagType, "bogus"), (TagObjectives, "0.5:0.05")]⟩

/-- A summary field whose single objectives entry has both sides malformed. -/
def badObjectivesField : MetricField :=
  ⟨"Sum", "", false, .summary, [(TagObjectives, "a:b")]⟩

/-- An invalid scalar counter field: the `type` tag is never allowed there. -/
def demoInvalidCounter : MetricField :=
  ⟨"BadCounter", "", false, .counter, [(TagType, "histogram")]⟩

/-- A valid scalar gauge field. -/
def demoValidGauge : MetricField :=
  ⟨"GoodGauge", "", false, .gauge, []⟩

/-- An invalid counter-vector field: the required `labelNames` tag is absent. -/
def demoInvalidCounterVec : MetricField :=
  ⟨"BadCounterVec", "", false, .counterVec, []⟩

/-- A bundle with two independently-invalid fields around one valid field. -/
def demoBundleFields : List MetricField :=
  [demoInvalidCounter, demoValidGauge, demoInvalidCounterVec]

/-- A generic observer field with an `objectives` tag and no `type` tag. -/
def demoObserverObjectives : MetricField :=
  ⟨"Obs1", "", false, .observer, [(TagObjectives, "0.5:0.05")]⟩

/-- A generic observer field with a `buckets` tag and no `type` tag. -/
def demoObserverBuckets : MetricField :=
  ⟨"Obs2", "", false, .observer, [(TagBuckets, "1,2")]⟩

/-- A generic observer field with `type:"histogram"` and an `objectives` tag. -/
def demoObserverBoth : MetricField :=
  ⟨"Obs3", "", false, .observer, [(TagType, "histogram"), (TagObjectives, "0.5:0.05")]⟩

/-- The error list produced for the present exclusive tags of the non-chosen
observer kind. -/
def ambiguousErrsFor (mf : MetricField) (tagNames : List String) : List Err :=
  (tagNames.filter (tagPresent mf)).map
    (fun t => Err.field ⟨mf.fname, mf.ftype, ErrMsg.ambiguous t, none⟩)

/-- An error that is not the missing-label-names error and that is attributable
to the given field whenever it is a `FieldError`. -/
def benign (mf : MetricField) (e : Err) : Prop :=
  e.isLabelReq = false ∧ errBelongs mf e

/-- The errors a vector-typed field accumulates before the `labelNames` check
(the last step of each vector branch of `newOpts`). -/
def preLabelErrs (mf : MetricField) : List Err :=
  match mf.ftype with
  | .counterVec => mf.checkTagNotAllowed (mf.newCounterOpts).2 [TagType]
  | .gaugeVec => mf.checkTagNotAllowed (mf.newGaugeOpts).2 [TagType]
  | .histogramVec =>
    mf.checkTagNotAllowed (mf.checkTagNotAllowed (mf.newHistogramOpts).2 [TagType]) summaryTagNames
  | .summaryVec =>
    mf.checkTagNotAllowed (mf.checkTagNotAllowed (mf.newSummaryOpts).2 [TagType]) histogramTagNames
  | .observerVec => (mf.newObserverOpts).2
  | _ => []

/-- A counter-vector field with a well-formed `labelNames` tag. -/
def demoLabeledCounterVec : MetricField :=
  ⟨"GoodCounterVec", "", false, .counterVec, [(TagLabelNames, "method,code")]⟩

-- ==== DEFINITIONS ABOVE / THEOREMS BELOW ====

/-! ## Behavior of the scanner: helper lemmas -/

theorem isEmpty_false_iff {α : Type} (l : List α) : l.isEmpty = false ↔ l ≠ [] := by
  cases l <;> simp

theorem flush_eq (o : List Char) (pu : Bool) (t : List Char) :
    Snakifier.flush ⟨o, pu, t⟩ = ⟨glueTok o t, pu, []⟩ := by
  unfold Snakifier.flush glueTok
  by_cases ht : t.isEmpty
  · rw [if_pos ht, if_pos ht]
    have : t = [] := by simpa using ht
    simp [this]
  · rw [if_neg ht, if_neg ht]
    by_cases ho : o.isEmpty
    · have : o = [] := by simpa using ho
      simp [this, snakeCaseSeparator]
    · simp only [if_neg ho, snakeCaseSeparator]
      simp

theorem glueTok_nil_left (l : List Char) : glueTok [] l = l := by
  unfold glueTok
  by_cases h : l.isEmpty
  · have : l = [] := by simpa using h
    simp [this]
  · simp [h]

theorem glueTok_glueTok (o t rest : List Char) (ht : t ≠ []) (hrest : rest ≠ []) :
    glueTok (glueTok o t) rest = glueTok o (t ++ '_' :: rest) := by
  by_cases ho : o = []
  · subst ho
    simp [glueTok, List.isEmpty_iff, ht, hrest]
  · simp [glueTok, List.isEmpty_iff, ht, hrest, ho]

theorem push_underscore (o : List Char) (pu : Bool) (t : List Char) :
    Snakifier.push ⟨o, pu, t⟩ '_' = ⟨glueTok o t, pu, []⟩ := by
  unfold Snakifier.push
  rw [if_pos (show '_' = snakeCaseSeparator from rfl)]
  exact flush_eq o pu t

theorem push_empty_plain {c : Char} (h : plainSnakeChar c = true) (o : List Char) (pu : Bool) :
    Snakifier.push ⟨o, pu, []⟩ c = ⟨o, false, [c]⟩ := by
  simp only [Snakifier.push, snakeCaseSeparator]
  rw [if_neg (plain_ne_underscore h)]
  simp [plain_not_upper h, isTitleChar, plain_toLower h]

theorem push_empty_upper {c : Char} (h : c.isUpper = true) (o : List Char) (pu : Bool) :
    Snakifier.push ⟨o, pu, []⟩ c = ⟨o, true, [c.toLower]⟩ := by
  simp only [Snakifier.push, snakeCaseSeparator]
  rw [if_neg (upper_ne_underscore h)]
  simp [h]

theorem push_plain {c : Char} (h : plainSnakeChar c = true) (o t : List Char) (ht : t ≠ []) :
    Snakifier.push ⟨o, false, t⟩ c = ⟨o, false, t ++ [c]⟩ := by
  simp only [Snakifier.push, snakeCaseSeparator]
  rw [if_neg (plain_ne_underscore h)]
  have ht' : t.isEmpty = false := (isEmpty_false_iff t).mpr ht
  by_cases hl : c.isLower
  · simp [ht', hl]
  · simp [ht', hl, plain_not_upper h, isTitleChar]

theorem push_upper {c : Char} (h : c.isUpper = true) (o t : List Char) (ht : t ≠ []) :
    Snakifier.push ⟨o, true, t⟩ c = ⟨o, true, t ++ [c.toLower]⟩ := by
  simp only [Snakifier.push, snakeCaseSeparator]
  rw [if_neg (upper_ne_underscore h)]
  have ht' : t.isEmpty = false := (isEmpty_false_iff t).mpr ht
  simp [ht', upper_not_lower h, h]

theorem push_lower_split {c : Char} (h : c.isLower = true) (o t : List Char)
    (ht : t.length > 1) :
    Snakifier.push ⟨o, true, t⟩ c =
      ⟨glueTok o t.dropLast, false, [t.getLastD c, c]⟩ := by
  simp only [Snakifier.push, snakeCaseSeparator]
  rw [if_neg (plain_ne_underscore (lower_plain h))]
  have ht0 : t ≠ [] := by
    intro he; rw [he] at ht; simp at ht
  have ht' : t.isEmpty = false := (isEmpty_false_iff t).mpr ht0
  simp [ht', h, ht, flush_eq]

theorem run_plain : ∀ (cs : List Char), (∀ c ∈ cs, plainSnakeChar c = true) →
    ∀ (o t : List Char), t ≠ [] →
      cs.foldl Snakifier.push ⟨o, false, t⟩ = ⟨o, false, t ++ cs⟩
  | [], _, o, t, _ => by simp
  | c :: rest, hcs, o, t, ht => by
    have hc : plainSnakeChar c = true := hcs c (by simp)
    rw [List.foldl_cons, push_plain hc o t ht,
      run_plain rest (fun x hx => hcs x (by simp [hx])) o (t ++ [c]) (by simp)]
    simp

theorem run_upper : ∀ (cs : List Char), (∀ c ∈ cs, c.isUpper = true) →
    ∀ (o t : List Char), t ≠ [] →
      cs.foldl Snakifier.push ⟨o, true, t⟩ = ⟨o, true, t ++ cs.map Char.toLower⟩
  | [], _, o, t, _ => by simp
  | c :: rest, hcs, o, t, ht => by
    have hc : c.isUpper = true := hcs c (by simp)
    rw [List.foldl_cons, push_upper hc o t ht,
      run_upper rest (fun x hx => hcs x (by simp [hx])) o (t ++ [c.toLower]) (by simp)]
    simp

theorem snakeShape_aux (l : List Char) :
    ∀ (o t : List Char),
      snakeShapeFrom (!t.isEmpty) l = true →
      (∀ c ∈ t, plainSnakeChar c = true) →
      ((l.foldl Snakifier.push ⟨o, false, t⟩).flush).output = glueTok o (t ++ l) := by
  induction l with
  | nil =>
    intro o t _ _
    simp [flush_eq]
  | cons c rest ih =>
    intro o t hshape hplain
    by_cases hc : c = '_'
    · subst hc
      unfold snakeShapeFrom at hshape
      rw [if_pos rfl] at hshape
      simp only [Bool.and_eq_true, Bool.not_eq_true'] at hshape
      obtain ⟨⟨htne, hrne⟩, hrest⟩ := hshape
      have ht : t ≠ [] := (isEmpty_false_iff t).mp htne
      have hr : rest ≠ [] := (isEmpty_false_iff rest).mp hrne
      rw [List.foldl_cons, push_underscore,
        ih (glueTok o t) [] (by simpa using hrest) (by simp)]
      rw [List.nil_append, glueTok_glueTok o t rest ht hr]
    · unfold snakeShapeFrom at hshape
      rw [if_neg hc] at hshape
      simp only [Bool.and_eq_true] at hshape
      obtain ⟨hcp, hrest⟩ := hshape
      cases t with
      | nil =>
        rw [List.foldl_cons, push_empty_plain hcp,
          ih o [c] (by simpa using hrest) (by simpa using hcp)]
        simp
      | cons a as =>
        rw [List.foldl_cons, push_plain hcp o (a :: as) (by simp),
          ih o ((a :: as) ++ [c]) (by simpa using hrest)
            (by
              intro x hx
              rcases List.mem_append.mp hx with hx | hx
              · exact hplain x hx
              · simp only [List.mem_singleton] at hx
                subst hx
                exact hcp)]
        simp

theorem toSnakeCaseL_id {l : List Char} (h : snakeShape l = true) : toSnakeCaseL l = l := by
  unfold toSnakeCaseL
  rw [snakeShape_aux l [] [] (by simpa [snakeShape] using h) (by simp)]
  rw [List.nil_append, glueTok_nil_left]

theorem getLastD_irrel {α : Type} (l : List α) (h : l ≠ []) (d d' : α) :
    l.getLastD d = l.getLastD d' := by
  cases l with
  | nil => exact absurd rfl h
  | cons a as =>
    cases h' : (a :: as).getLast? with
    | none => simp [List.getLast?_eq_none_iff] at h'
    | some x => simp [List.getLastD_eq_getLast?, h']

theorem glueTok_eq_append (o t : List Char) (ho : o ≠ []) (ht : t ≠ []) :
    glueTok o t = o ++ '_' :: t := by
  simp [glueTok, List.isEmpty_iff, ho, ht]

theorem toSnakeCaseL_acronym (u v : List Char) (hu2 : 2 ≤ u.length)
    (hu : ∀ c ∈ u, c.isUpper = true) (hv0 : v ≠ []) (hv : ∀ c ∈ v, c.isLower = true) :
    toSnakeCaseL (u ++ v) =
      (u.map Char.toLower).dropLast ++ '_' :: (u.map Char.toLower).getLastD 'a' :: v := by
  match u, hu2 with
  | a :: b :: us, _ =>
    match v, hv0 with
    | w :: ws, _ =>
      unfold toSnakeCaseL
      have hinner : List.foldl Snakifier.push ⟨[], false, []⟩ (a :: b :: us) =
          ⟨[], true, (a :: b :: us).map Char.toLower⟩ := by
        rw [List.foldl_cons, push_empty_upper (hu a (by simp)),
          run_upper (b :: us) (fun c hc => hu c (by simp [hc])) [] [a.toLower] (by simp)]
        simp
      rw [List.foldl_append, hinner, List.foldl_cons,
        push_lower_split (hv w (by simp)) [] ((a :: b :: us).map Char.toLower) (by simp),
        glueTok_nil_left,
        run_plain ws (fun c hc => lower_plain (hv c (by simp [hc]))) _ _ (by simp),
        flush_eq]
      have hdne : ((a :: b :: us).map Char.toLower).dropLast ≠ [] := by
        simp [List.dropLast]
      rw [glueTok_eq_append _ _ hdne (by simp)]
      rw [getLastD_irrel ((a :: b :: us).map Char.toLower) (by simp) w 'a']
      simp

theorem replaceFirstStar_no_star (s new : List Char) (h : '*' ∉ s) :
    replaceFirstStar s new = s := by
  induction s with
  | nil => rfl
  | cons c rest ih =>
    have hc : ¬ c = '*' := by
      intro he
      exact h (by simp [he])
    simp only [replaceFirstStar, if_neg hc]
    rw [ih (fun hm => h (by simp [hm]))]

theorem replaceFirstStar_split (pre post new : List Char) (h : '*' ∉ pre) :
    replaceFirstStar (pre ++ '*' :: post) new = pre ++ new ++ post := by
  induction pre with
  | nil => simp [replaceFirstStar]
  | cons c rest ih =>
    have hc : ¬ c = '*' := by
      intro he
      exact h (by simp [he])
    rw [List.cons_append]
    simp only [replaceFirstStar, if_neg hc]
    rw [ih (fun hm => h (by simp [hm]))]
    simp

/-- Claim C4: metric name resolution.  A present `name` tag has the first
occurrence of `*` replaced by the snake-cased field name; a tag without `*` is
used verbatim; an absent or empty tag falls back to the snake-cased field
name; and the five literal examples from the specification hold. -/
theorem C4_metric_name_resolution :
    (MetricName "RequestCount" [] = "request_count" ∧
     MetricName "RequestCount" [(TagName, "custom_name")] = "custom_name" ∧
     MetricName "RequestCount" [(TagName, "prefix_*")] = "prefix_request_count" ∧
     MetricName "RequestCount" [(TagName, "*_suffix")] = "request_count_suffix" ∧
     MetricName "RequestCount" [(TagName, "a_*_b")] = "a_request_count_b") ∧
    (∀ (fieldName : String) (tags : TagMap), tagGet tags TagName = "" →
      MetricName fieldName tags = toSnakeCase fieldName) ∧
    (∀ (fieldName : String) (tags : TagMap) (nv : String), tagGet tags TagName = nv →
      nv ≠ "" → '*' ∉ nv.data → MetricName fieldName tags = nv) ∧
    (∀ (fieldName : String) (tags : TagMap) (pre post : List Char),
      (tagGet tags TagName).data = pre ++ '*' :: post → '*' ∉ pre →
      MetricName fieldName tags = ⟨pre ++ (toSnakeCase fieldName).data ++ post⟩) := by
  refine ⟨by decide, ?_, ?_, ?_⟩
  · intro fieldName tags h
    simp only [MetricName]
    rw [h]
    rfl
  · intro fieldName tags nv h hne hstar
    simp only [MetricName]
    rw [h, replaceFirstStar_no_star _ _ hstar]
    have hmk : (⟨nv.data⟩ : String) = nv := rfl
    rw [hmk, if_neg (fun he => hne ((String.isEmpty_iff nv).mp he))]
  · intro fieldName tags pre post h hstar
    simp only [MetricName]
    rw [h, replaceFirstStar_split _ _ _ hstar]
    by_cases he : (⟨pre ++ (toSnakeCase fieldName).data ++ post⟩ : String).isEmpty = true
    · rw [if_pos he]
      have hdata : pre ++ (toSnakeCase fieldName).data ++ post = [] := by
        have := (String.isEmpty_iff _).mp he
        have h2 : (⟨pre ++ (toSnakeCase fieldName).data ++ post⟩ : String).data = ("" : String).data := by
          rw [this]
        simpa using h2
      rcases List.append_eq_nil.mp hdata with ⟨h1, hpost⟩
      rcases List.append_eq_nil.mp h1 with ⟨hpre, hsnake⟩
      rw [hpre, hsnake, hpost]
      apply String.ext
      simpa using hsnake
    · rw [if_neg he]

/-- Claim C5: identifier normalization: the eight literal examples of the
specification, and in general an identifier consisting of a run of two or
more uppercase letters followed by lowercase letters is tokenized as the
acronym without its last letter, then the last letter starting the next
token. -/
theorem C5_identifier_normalization :
    (toSnakeCase "Simple" = "simple" ∧
     toSnakeCase "RequestCount" = "request_count" ∧
     toSnakeCase "RequestURI" = "request_uri" ∧
     toSnakeCase "INITIALCAPS" = "initialcaps" ∧
     toSnakeCase "Preserve_underscore" = "preserve_underscore" ∧
     toSnakeCase "SomethingABCDoit" = "something_abc_doit" ∧
     toSnakeCase "AComplex00Identifier" = "a_complex00_identifier" ∧
     toSnakeCase "" = "") ∧
    (∀ (u v : List Char), 2 ≤ u.length → (∀ c ∈ u, c.isUpper = true) →
      v ≠ [] → (∀ c ∈ v, c.isLower = true) →
      toSnakeCaseL (u ++ v) =
        (u.map Char.toLower).dropLast ++ '_' :: (u.map Char.toLower).getLastD 'a' :: v) :=
  ⟨by decide, toSnakeCaseL_acronym⟩

/-- Witness for C5: the general acronym-run clause instantiated at the
identifier `URIx`. -/
theorem C5_witness :
    toSnakeCaseL (['U', 'R', 'I'] ++ ['x']) =
      ((['U', 'R', 'I'] : List Char).map Char.toLower).dropLast ++
        '_' :: ((['U', 'R', 'I'] : List Char).map Char.toLower).getLastD 'a' :: ['x'] :=
  C5_identifier_normalization.2 ['U', 'R', 'I'] ['x'] (by decide) (by decide) (by decide)
    (by decide)

/-- Claim C6: normalization idempotence: on strings of lowercase ASCII
letters, digits, and single non-leading, non-trailing, non-consecutive
underscores, the normalizer is the identity, hence applying it twice equals
applying it once. -/
theorem C6_normalization_idempotence (s : String) (h : snakeShape s.data = true) :
    toSnakeCase (toSnakeCase s) = toSnakeCase s ∧ toSnakeCase s = s := by
  have hid : toSnakeCase s = s := by
    unfold toSnakeCase
    by_cases he : s.isEmpty
    · simp [he]
    · rw [if_neg he]
      apply String.ext
      simpa using toSnakeCaseL_id h
  constructor
  · rw [hid, hid]
  · exact hid

/-- Witness for C6 at the already-snake-case string `request_count2`. -/
theorem C6_witness :
    snakeShape "request_count2".data = true ∧
      (toSnakeCase (toSnakeCase "request_count2") = toSnakeCase "request_count2" ∧
        toSnakeCase "request_count2" = "request_count2") :=
  ⟨by decide, C6_normalization_idempotence "request_count2" (by decide)⟩

/-- Witness for C4: the fallback, verbatim, and wildcard clauses at concrete
inputs. -/
theorem C4_witness :
    MetricName "RequestCount" [(TagTouchstone, "-")] = toSnakeCase "RequestCount" ∧
    MetricName "RequestCount" [(TagName, "custom_name")] = "custom_name" ∧
    MetricName "RequestCount" [(TagName, "a_*_b")] =
      ⟨['a', '_'] ++ (toSnakeCase "RequestCount").data ++ ['_', 'b']⟩ :=
  ⟨C4_metric_name_resolution.2.1 "RequestCount" [(TagTouchstone, "-")] (by decide),
   C4_metric_name_resolution.2.2.1 "RequestCount" [(TagName, "custom_name")] "custom_name"
     (by decide) (by decide) (by decide),
   C4_metric_name_resolution.2.2.2 "RequestCount" [(TagName, "a_*_b")] ['a', '_'] ['_', 'b']
     (by decide) (by decide)⟩

theorem checkInvalidTagNames_eq (mf : MetricField) (mk : String → ErrMsg) :
    ∀ (tagNames : List String) (appendErr : List Err),
      mf.checkInvalidTagNames appendErr mk tagNames =
        appendErr ++ (tagNames.filter (tagPresent mf)).map
          (fun t => Err.field ⟨mf.fname, mf.ftype, mk t, none⟩)
  | [], e => by simp [MetricField.checkInvalidTagNames]
  | t :: rest, e => by
    have hstep : mf.checkInvalidTagNames e mk (t :: rest) =
        mf.checkInvalidTagNames
          (if tagPresent mf t then e ++ [Err.field ⟨mf.fname, mf.ftype, mk t, none⟩] else e)
          mk rest := by
      simp [MetricField.checkInvalidTagNames]
    rw [hstep, checkInvalidTagNames_eq mf mk rest]
    by_cases hp : tagPresent mf t
    · rw [if_pos hp]
      simp [List.filter_cons, hp]
    · rw [if_neg hp]
      simp [List.filter_cons, hp]

theorem checkTagNotAllowed_eq (mf : MetricField) (tagNames : List String) (appendErr : List Err) :
    mf.checkTagNotAllowed appendErr tagNames =
      appendErr ++ (tagNames.filter (tagPresent mf)).map
        (fun t => Err.field ⟨mf.fname, mf.ftype, ErrMsg.notAllowed t, none⟩) :=
  checkInvalidTagNames_eq mf ErrMsg.notAllowed tagNames appendErr

theorem checkTagAmbiguous_eq (mf : MetricField) (tagNames : List String) (appendErr : List Err) :
    mf.checkTagAmbiguous appendErr tagNames =
      appendErr ++ (tagNames.filter (tagPresent mf)).map
        (fun t => Err.field ⟨mf.fname, mf.ftype, ErrMsg.ambiguous t, none⟩) :=
  checkInvalidTagNames_eq mf ErrMsg.ambiguous tagNames appendErr

/-- Counterexample to claim C8 as stated: on a scalar counter field, the mere
presence of the `buckets` tag (a recognized tag that is neither the type-hint
tag nor the label-names tag) does cause a not-allowed error, because
`newCounterOpts` also rejects every observer tag. -/
theorem C8_counterexample :
    (counterBucketsField.newOpts).errs ≠ [] ∧
    (counterBucketsField.newOpts).errs =
      [Err.field ⟨"MyCounter", FType.counter, ErrMsg.notAllowed TagBuckets, none⟩] := by
  constructor
  · decide
  · decide

/-- Claim C8 (amended): on a scalar counter field the disallowed tags are
exactly the observer tags (`buckets`, `objectives`, `maxAge`, `ageBuckets`,
`bufCap`) together with the type-hint and label-names tags: each present
disallowed tag yields one not-allowed error, in source order, and a counter
field carrying none of them yields no error; the check reacts to presence,
not value. -/
theorem C8_counter_tag_legality (mf : MetricField) (hft : mf.ftype = FType.counter) :
    (mf.newOpts).errs =
      (counterDisallowedTags.filter (tagPresent mf)).map
        (fun t => Err.field ⟨mf.fname, FType.counter, ErrMsg.notAllowed t, none⟩) ∧
    ((∀ t ∈ counterDisallowedTags, ¬ tagPresent mf t) → (mf.newOpts).errs = []) := by
  obtain ⟨fn, pp, an, ft, tg⟩ := mf
  change ft = FType.counter at hft
  subst hft
  have h1 : (MetricField.mk fn pp an FType.counter tg).newOpts.errs =
      (counterDisallowedTags.filter (tagPresent (MetricField.mk fn pp an FType.counter tg))).map
        (fun t => Err.field ⟨fn, FType.counter, ErrMsg.notAllowed t, none⟩) := by
    simp only [MetricField.newOpts, MetricField.newCounterOpts]
    rw [checkTagNotAllowed_eq, checkTagNotAllowed_eq]
    simp [counterDisallowedTags, List.filter_append]
  refine ⟨h1, fun hnone => ?_⟩
  rw [h1]
  have : counterDisallowedTags.filter (tagPresent (MetricField.mk fn pp an FType.counter tg)) = [] := by
    rw [List.filter_eq_nil_iff]
    intro t ht
    exact fun hp => hnone t ht hp
  rw [this]
  rfl

/-- Witness for C8 (amended): at the concrete counter field carrying a
`buckets` tag, and at a tag-free counter field. -/
theorem C8_witness :
    (counterBucketsField.newOpts).errs =
      (counterDisallowedTags.filter (tagPresent counterBucketsField)).map
        (fun t => Err.field ⟨counterBucketsField.fname, FType.counter, ErrMsg.notAllowed t, none⟩) ∧
    ((MetricField.mk "C" "" false FType.counter []).newOpts).errs = [] :=
  ⟨(C8_counter_tag_legality counterBucketsField rfl).1,
   (C8_counter_tag_legality (MetricField.mk "C" "" false FType.counter []) rfl).2
     (by decide)⟩

/-- Counterexample to claim C3 as stated: a generic observer field whose
`type` tag has the unrecognized value `"bogus"` and which carries an
`objectives` tag does not resolve to a summary (no options are produced);
it yields an invalid-observer-type error instead. -/
theorem C3_counterexample :
    (bogusObserverField.newObserverOpts).1 = none ∧
    (bogusObserverField.newObserverOpts).2 =
      [Err.field ⟨"Obs", FType.observer, ErrMsg.invalidObserverType "bogus", none⟩] := by
  constructor
  · decide
  · decide

/-- Claim C3 (amended): for observer and observer-vector fields, a `type` tag
equal to `histogram` or `summary` selects that kind; with no `type` tag the
field resolves to a summary when any summary-only tag is present and to a
histogram otherwise; whichever kind is not chosen, each present exclusive tag
of it yields one ambiguous-tag error; and a present `type` tag with any other
value yields one invalid-observer-type error and no options. -/
theorem C3_observer_disambiguation (mf : MetricField) :
    ((mf.newHistogramOpts).1.isHistogram = true ∧ (mf.newSummaryOpts).1.isSummary = true) ∧
    (tagGet mf.tags TagType = TypeHistogram →
      mf.newObserverOpts =
        (some (mf.newHistogramOpts).1,
          (mf.newHistogramOpts).2 ++ ambiguousErrsFor mf summaryTagNames)) ∧
    (tagGet mf.tags TagType = TypeSummary →
      mf.newObserverOpts =
        (some (mf.newSummaryOpts).1,
          (mf.newSummaryOpts).2 ++ ambiguousErrsFor mf histogramTagNames)) ∧
    (tagGet mf.tags TagType = "" → mf.hasAnyTagNames summaryTagNames = true →
      mf.newObserverOpts =
        (some (mf.newSummaryOpts).1,
          (mf.newSummaryOpts).2 ++ ambiguousErrsFor mf histogramTagNames)) ∧
    (tagGet mf.tags TagType = "" → mf.hasAnyTagNames summaryTagNames = false →
      mf.newObserverOpts =
        (some (mf.newHistogramOpts).1,
          (mf.newHistogramOpts).2 ++ ambiguousErrsFor mf summaryTagNames)) ∧
    (∀ mt, tagGet mf.tags TagType = mt → mt ≠ "" → mt ≠ TypeHistogram → mt ≠ TypeSummary →
      mf.newObserverOpts = (none, [mf.fieldErrorf (ErrMsg.invalidObserverType mt)])) := by
  refine ⟨⟨rfl, rfl⟩, ?_, ?_, ?_, ?_, ?_⟩
  · intro h
    simp only [MetricField.newObserverOpts, h]
    rw [if_pos trivial, checkTagAmbiguous_eq]
    rfl
  · intro h
    simp only [MetricField.newObserverOpts, h]
    rw [if_pos trivial, checkTagAmbiguous_eq]
    rfl
  · intro h hany
    simp only [MetricField.newObserverOpts, h, hany]
    rw [if_pos trivial, checkTagAmbiguous_eq]
    rfl
  · intro h hany
    simp only [MetricField.newObserverOpts, h, hany]
    rw [if_neg (by decide), checkTagAmbiguous_eq]
    rfl
  · intro mt h hne hh hs
    simp only [MetricField.newObserverOpts, h]
    rw [if_neg hh, if_neg hs, if_pos]
    · rw [checkTagAmbiguous_eq]
      simp [MetricField.fieldErrorf]
    · cases hd : mt.data with
      | nil =>
        exact absurd (String.ext hd) hne
      | cons c cs =>
        show 0 < mt.length
        rw [String.length, hd]
        simp

/-- Witness for C3 (amended): the three literal examples of the claim —
`objectives` with no `type` tag resolves to a summary, `buckets` with no
`type` tag resolves to a histogram, and `type:"histogram"` with an
`objectives` tag yields an ambiguous-tag error. -/
theorem C3_witness :
    demoObserverObjectives.newObserverOpts =
      (some (demoObserverObjectives.newSummaryOpts).1,
        (demoObserverObjectives.newSummaryOpts).2 ++
          ambiguousErrsFor demoObserverObjectives histogramTagNames) ∧
    demoObserverBuckets.newObserverOpts =
      (some (demoObserverBuckets.newHistogramOpts).1,
        (demoObserverBuckets.newHistogramOpts).2 ++
          ambiguousErrsFor demoObserverBuckets summaryTagNames) ∧
    demoObserverBoth.newObserverOpts =
      (some (demoObserverBoth.newHistogramOpts).1,
        (demoObserverBoth.newHistogramOpts).2 ++
          ambiguousErrsFor demoObserverBoth summaryTagNames) :=
  ⟨(C3_observer_disambiguation demoObserverObjectives).2.2.2.1 (by decide) (by decide),
   (C3_observer_disambiguation demoObserverBuckets).2.2.2.2.1 (by decide) (by decide),
   (C3_observer_disambiguation demoObserverBoth).2.1 (by decide)⟩

theorem labelNames_eq (mf : MetricField) (appendErr : List Err) :
    mf.labelNames appendErr =
      ((splitString ',' (tagGet mf.tags TagLabelNames)).map trimSpace,
        appendErr ++ (if labelsDegenerate mf = true then [labelNamesRequiredErr mf] else [])) := by
  unfold MetricField.labelNames labelsDegenerate labelNamesRequiredErr
  cases hv : (splitString ',' (tagGet mf.tags TagLabelNames)).map trimSpace with
  | nil => simp
  | cons x rest =>
    cases rest with
    | nil =>
      by_cases hx : x.isEmpty = true
      · simp [hx]
      · simp [hx]
    | cons y rest2 => simp

theorem check_mem_benign (mf : MetricField) (mk : String → ErrMsg)
    (hmk : ∀ t, mk t ≠ ErrMsg.labelNamesRequired)
    (tagNames : List String) (base : List Err) :
    ∀ e ∈ mf.checkInvalidTagNames base mk tagNames, e ∈ base ∨ benign mf e := by
  intro e he
  rw [checkInvalidTagNames_eq] at he
  rcases List.mem_append.mp he with h | h
  · exact Or.inl h
  · right
    obtain ⟨t, ht, rfl⟩ := List.mem_map.mp h
    refine ⟨?_, rfl, rfl⟩
    simp [Err.isLabelReq, hmk t]

theorem appendError_mem_benign (mf : MetricField) (base : List Err) (c : Option GoErr) :
    ∀ e ∈ mf.appendError base c, e ∈ base ∨ benign mf e := by
  intro e he
  cases c with
  | none => exact Or.inl he
  | some g =>
    simp only [MetricField.appendError] at he
    rcases List.mem_append.mp he with h | h
    · exact Or.inl h
    · right
      simp only [List.mem_singleton] at h
      subst h
      exact ⟨by simp [Err.isLabelReq, MetricField.wrapError], rfl, rfl⟩

theorem bucketsFold_mem (mf : MetricField) :
    ∀ (vs : List String) (acc : List Err), (∀ e ∈ acc, benign mf e) →
      ∀ e ∈ vs.foldl
          (fun errs v =>
            match parseFloat? (trimSpace v) with
            | some _ => errs
            | none => errs ++ [Err.raw (.parseFloatError (trimSpace v))]) acc,
        benign mf e
  | [], _, hacc => hacc
  | v :: rest, acc, hacc => by
    rw [List.foldl_cons]
    apply bucketsFold_mem mf rest
    intro e he
    cases hp : parseFloat? (trimSpace v) with
    | some q =>
      rw [hp] at he
      exact hacc e he
    | none =>
      rw [hp] at he
      rcases List.mem_append.mp he with h | h
      · exact hacc e h
      · simp only [List.mem_singleton] at h
        subst h
        exact ⟨rfl, trivial⟩

theorem buckets_mem_benign (mf : MetricField) : ∀ e ∈ (mf.buckets).2, benign mf e := by
  unfold MetricField.buckets
  by_cases ht : (tagGet mf.tags TagBuckets).isEmpty = true
  · simp [ht]
  · simp only [if_neg ht]
    exact bucketsFold_mem mf _ [] (by simp)

theorem objStep_mem_benign (mf : MetricField) (acc : List (ℚ × ℚ) × List Err) (entry : String) :
    ∀ e ∈ (objectivesEntryStep mf acc entry).2, e ∈ acc.2 ∨ benign mf e := by
  intro e he
  unfold objectivesEntryStep at he
  rcases hsp : splitString ':' entry with _ | ⟨k, _ | ⟨v, _ | ⟨w, rest3⟩⟩⟩ <;>
    rw [hsp] at he
  · rcases List.mem_append.mp he with h | h
    · exact Or.inl h
    · right
      simp only [List.mem_singleton] at h
      subst h
      exact ⟨by simp [Err.isLabelReq, MetricField.fieldErrorf], rfl, rfl⟩
  · rcases List.mem_append.mp he with h | h
    · exact Or.inl h
    · right
      simp only [List.mem_singleton] at h
      subst h
      exact ⟨by simp [Err.isLabelReq, MetricField.fieldErrorf], rfl, rfl⟩
  · cases hv : parseFloat? (trimSpace v) with
    | some q =>
      simp only [hv] at he
      rcases appendError_mem_benign mf _ _ e he with h | h
      · rcases appendError_mem_benign mf _ _ e h with h2 | h2
        · exact Or.inl h2
        · exact Or.inr h2
      · exact Or.inr h
    | none =>
      simp only [hv] at he
      rcases appendError_mem_benign mf _ _ e he with h | h
      · rcases appendError_mem_benign mf _ _ e h with h2 | h2
        · exact Or.inl h2
        · exact Or.inr h2
      · exact Or.inr h
  · rcases List.mem_append.mp he with h | h
    · exact Or.inl h
    · right
      simp only [List.mem_singleton] at h
      subst h
      exact ⟨by simp [Err.isLabelReq, MetricField.fieldErrorf], rfl, rfl⟩

theorem objFold_mem_benign (mf : MetricField) :
    ∀ (entries : List String) (acc : List (ℚ × ℚ) × List Err), (∀ e ∈ acc.2, benign mf e) →
      ∀ e ∈ (entries.foldl (objectivesEntryStep mf) acc).2, benign mf e
  | [], _, hacc => hacc
  | en :: rest, acc, hacc => by
    rw [List.foldl_cons]
    apply objFold_mem_benign mf rest
    intro e he
    rcases objStep_mem_benign mf acc en e he with h | h
    · exact hacc e h
    · exact h

theorem objectives_mem_benign (mf : MetricField) :
    ∀ e ∈ (mf.objectives []).2, benign mf e := by
  intro e he
  unfold MetricField.objectives at he
  by_cases ht : (tagGet mf.tags TagObjectives).isEmpty = true
  · rw [if_pos ht] at he
    simp at he
  · rw [if_neg ht] at he
    exact objFold_mem_benign mf _ ([], []) (by simp) e he

theorem maxAge_mem_benign (mf : MetricField) (base : List Err)
    (hb : ∀ e ∈ base, benign mf e) : ∀ e ∈ (mf.maxAge base).2, benign mf e := by
  intro e he
  unfold MetricField.maxAge at he
  rcases appendError_mem_benign mf base _ e he with h | h
  · exact hb e h
  · exact h

theorem ageBuckets_mem_benign (mf : MetricField) (base : List Err)
    (hb : ∀ e ∈ base, benign mf e) : ∀ e ∈ (mf.ageBuckets base).2, benign mf e := by
  intro e he
  unfold MetricField.ageBuckets at he
  rcases appendError_mem_benign mf base _ e he with h | h
  · exact hb e h
  · exact h

theorem bufCap_mem_benign (mf : MetricField) (base : List Err)
    (hb : ∀ e ∈ base, benign mf e) : ∀ e ∈ (mf.bufCap base).2, benign mf e := by
  intro e he
  unfold MetricField.bufCap at he
  rcases appendError_mem_benign mf base _ e he with h | h
  · exact hb e h
  · exact h

theorem newCounterOpts_mem_benign (mf : MetricField) :
    ∀ e ∈ (mf.newCounterOpts).2, benign mf e := by
  intro e he
  rcases check_mem_benign mf ErrMsg.notAllowed (by intro t; simp) observerTagNames [] e he with h | h
  · simp at h
  · exact h

theorem newGaugeOpts_mem_benign (mf : MetricField) :
    ∀ e ∈ (mf.newGaugeOpts).2, benign mf e := by
  intro e he
  rcases check_mem_benign mf ErrMsg.notAllowed (by intro t; simp) observerTagNames [] e he with h | h
  · simp at h
  · exact h

theorem newHistogramOpts_mem_benign (mf : MetricField) :
    ∀ e ∈ (mf.newHistogramOpts).2, benign mf e :=
  fun e he => buckets_mem_benign mf e he

theorem newSummaryOpts_mem_benign (mf : MetricField) :
    ∀ e ∈ (mf.newSummaryOpts).2, benign mf e :=
  fun e he =>
    bufCap_mem_benign mf _
      (ageBuckets_mem_benign mf _
        (maxAge_mem_benign mf _ (objectives_mem_benign mf))) e he

theorem newObserverOpts_mem_benign (mf : MetricField) :
    ∀ e ∈ (mf.newObserverOpts).2, benign mf e := by
  intro e he
  unfold MetricField.newObserverOpts at he
  rcases check_mem_benign mf ErrMsg.ambiguous (by intro t; simp) _ _ e he with h | h
  · split at h
    · exact newHistogramOpts_mem_benign mf e h
    · split at h
      · exact newSummaryOpts_mem_benign mf e h
      · split at h
        · simp only [List.mem_singleton] at h
          subst h
          exact ⟨by simp [Err.isLabelReq, MetricField.fieldErrorf], rfl, rfl⟩
        · split at h
          · exact newSummaryOpts_mem_benign mf e h
          · exact newHistogramOpts_mem_benign mf e h
  · exact h

theorem preLabelErrs_mem_benign (mf : MetricField) :
    ∀ e ∈ preLabelErrs mf, benign mf e := by
  intro e he
  revert he
  unfold preLabelErrs
  cases hft : mf.ftype <;> intro he
  case counterVec =>
    rcases check_mem_benign mf ErrMsg.notAllowed (by intro t; simp) _ _ e he with h | h
    · exact newCounterOpts_mem_benign mf e h
    · exact h
  case gaugeVec =>
    rcases check_mem_benign mf ErrMsg.notAllowed (by intro t; simp) _ _ e he with h | h
    · exact newGaugeOpts_mem_benign mf e h
    · exact h
  case histogramVec =>
    rcases check_mem_benign mf ErrMsg.notAllowed (by intro t; simp) _ _ e he with h | h
    · rcases check_mem_benign mf ErrMsg.notAllowed (by intro t; simp) _ _ e h with h2 | h2
      · exact newHistogramOpts_mem_benign mf e h2
      · exact h2
    · exact h
  case summaryVec =>
    rcases check_mem_benign mf ErrMsg.notAllowed (by intro t; simp) _ _ e he with h | h
    · rcases check_mem_benign mf ErrMsg.notAllowed (by intro t; simp) _ _ e h with h2 | h2
      · exact newSummaryOpts_mem_benign mf e h2
      · exact h2
    · exact h
  case observerVec => exact newObserverOpts_mem_benign mf e he
  all_goals simp at he

theorem newOpts_vec_errs (mf : MetricField) (hv : mf.ftype ∈ vectorFTypes) :
    (mf.newOpts).errs = preLabelErrs mf ++
      (if labelsDegenerate mf = true then [labelNamesRequiredErr mf] else []) := by
  obtain ⟨fn, pp, an, ft, tg⟩ := mf
  change ft ∈ _ at hv
  fin_cases hv <;>
    simp only [MetricField.newOpts, preLabelErrs, labelNames_eq]

theorem newOpts_errs_belong (mf : MetricField) : ∀ e ∈ (mf.newOpts).errs, errBelongs mf e := by
  intro e he
  by_cases hv : mf.ftype ∈ vectorFTypes
  · rw [newOpts_vec_errs mf hv] at he
    rcases List.mem_append.mp he with h | h
    · exact (preLabelErrs_mem_benign mf e h).2
    · by_cases hd : labelsDegenerate mf = true
      · rw [if_pos hd] at h
        simp only [List.mem_singleton] at h
        subst h
        exact ⟨rfl, rfl⟩
      · rw [if_neg hd] at h
        simp at h
  · revert he
    obtain ⟨fn, pp, an, ft, tg⟩ := mf
    change ¬ ft ∈ _ at hv
    cases ft <;> intro he <;> simp only [MetricField.newOpts] at he
    · rcases check_mem_benign _ ErrMsg.notAllowed (by intro t; simp) _ _ e he with h | h
      · exact (newCounterOpts_mem_benign _ e h).2
      · exact h.2
    · exact absurd (by simp [vectorFTypes]) hv
    · rcases check_mem_benign _ ErrMsg.notAllowed (by intro t; simp) _ _ e he with h | h
      · exact (newGaugeOpts_mem_benign _ e h).2
      · exact h.2
    · exact absurd (by simp [vectorFTypes]) hv
    · rcases check_mem_benign _ ErrMsg.notAllowed (by intro t; simp) _ _ e he with h | h
      · rcases check_mem_benign _ ErrMsg.notAllowed (by intro t; simp) _ _ e h with h2 | h2
        · exact (newHistogramOpts_mem_benign _ e h2).2
        · exact h2.2
      · exact h.2
    · exact absurd (by simp [vectorFTypes]) hv
    · rcases check_mem_benign _ ErrMsg.notAllowed (by intro t; simp) _ _ e he with h | h
      · rcases check_mem_benign _ ErrMsg.notAllowed (by intro t; simp) _ _ e h with h2 | h2
        · exact (newSummaryOpts_mem_benign _ e h2).2
        · exact h2.2
      · exact h.2
    · exact absurd (by simp [vectorFTypes]) hv
    · rcases check_mem_benign _ ErrMsg.notAllowed (by intro t; simp) _ _ e he with h | h
      · exact (newObserverOpts_mem_benign _ e h).2
      · exact h.2
    · exact absurd (by simp [vectorFTypes]) hv
    · simp at he

/-- Claim C9: vector label requirement: for every vector-typed field, an
absent `labelNames` tag means the comma-split, trimmed value is the single
empty entry; whenever that degenerate condition holds the required-tag error
is raised, whenever it does not hold that error is never raised, and a vector
field of each kind whose only tag is a non-empty `labelNames` yields no error
at all. -/
theorem C9_vector_label_requirement (mf : MetricField) (hv : mf.ftype ∈ vectorFTypes) :
    (tagLookup mf.tags TagLabelNames = none → labelsDegenerate mf = true) ∧
    (labelsDegenerate mf = true → labelNamesRequiredErr mf ∈ (mf.newOpts).errs) ∧
    (labelsDegenerate mf = false → labelNamesRequiredErr mf ∉ (mf.newOpts).errs) ∧
    (∀ ft ∈ vectorFTypes,
      ((MetricField.mk "M" "" false ft [(TagLabelNames, "method,code")]).newOpts).errs = []) := by
  refine ⟨?_, ?_, ?_, by decide⟩
  · intro h
    unfold labelsDegenerate tagGet
    rw [h]
    rfl
  · intro hd
    rw [newOpts_vec_errs mf hv, if_pos hd]
    exact List.mem_append.mpr (Or.inr (by simp))
  · intro hd
    rw [newOpts_vec_errs mf hv, if_neg (by simp [hd])]
    intro hmem
    rcases List.mem_append.mp hmem with h | h
    · have hb := (preLabelErrs_mem_benign mf _ h).1
      simp [labelNamesRequiredErr, MetricField.fieldErrorf, Err.isLabelReq] at hb
    · simp at h

/-- Witness for C9: the degenerate clause at a counter-vector field without a
`labelNames` tag, and the non-degenerate clause at a counter-vector field
with labels. -/
theorem C9_witness :
    (labelsDegenerate demoInvalidCounterVec = true ∧
      labelNamesRequiredErr demoInvalidCounterVec ∈ ((demoInvalidCounterVec.newOpts).errs)) ∧
    (labelsDegenerate demoLabeledCounterVec = false ∧
      labelNamesRequiredErr demoLabeledCounterVec ∉ ((demoLabeledCounterVec.newOpts).errs)) :=
  ⟨⟨by decide,
    (C9_vector_label_requirement demoInvalidCounterVec (by decide)).2.1 (by decide)⟩,
   ⟨by decide,
    (C9_vector_label_requirement demoLabeledCounterVec (by decide)).2.2.1 (by decide)⟩⟩

theorem lookup_cons_self {β : Type} (k : ℚ) (b : β) (l : List (ℚ × β)) :
    List.lookup k ((k, b) :: l) = some b := by
  simp [List.lookup]

theorem lookup_cons_ne {β : Type} (k a : ℚ) (hak : ¬ a = k) (b : β) (l : List (ℚ × β)) :
    List.lookup k ((a, b) :: l) = List.lookup k l := by
  have h : (k == a) = false := beq_eq_false_iff_ne.mpr (fun he => hak he.symm)
  simp [List.lookup, h]

theorem mapUpsert_lookup : ∀ (m : List (ℚ × ℚ)) (k v : ℚ), (mapUpsert m k v).lookup k = some v
  | [], k, v => by
    unfold mapUpsert
    rw [if_neg (by simp)]
    simp only [List.nil_append]
    exact lookup_cons_self k v []
  | (a, b) :: rest, k, v => by
    by_cases hak : a = k
    · subst hak
      have h1 : mapUpsert ((a, b) :: rest) a v =
          (a, v) :: rest.map (fun p => if p.1 = a then (a, v) else p) := by
        unfold mapUpsert
        rw [if_pos (by simp)]
        simp
      rw [h1]
      exact lookup_cons_self a v _
    · by_cases hr : (rest.any fun p => decide (p.1 = k)) = true
      · have h1 : mapUpsert ((a, b) :: rest) k v =
            (a, b) :: rest.map (fun p => if p.1 = k then (k, v) else p) := by
          unfold mapUpsert
          rw [if_pos (by simp [List.any_cons, hr])]
          simp [hak]
        rw [h1, lookup_cons_ne k a hak b _]
        have h2 := mapUpsert_lookup rest k v
        unfold mapUpsert at h2
        rw [if_pos hr] at h2
        exact h2
      · have h1 : mapUpsert ((a, b) :: rest) k v = (a, b) :: (rest ++ [(k, v)]) := by
          unfold mapUpsert
          rw [if_neg (by simp [List.any_cons, hak, hr])]
          simp
        rw [h1, lookup_cons_ne k a hak b _]
        have h2 := mapUpsert_lookup rest k v
        unfold mapUpsert at h2
        rw [if_neg hr] at h2
        exact h2

theorem objectivesStep_spec (mf : MetricField) (acc : List (ℚ × ℚ) × List Err) (en : String) :
    objectivesEntryStep mf acc en =
      (objectivesSpecStep acc.1 en, acc.2 ++ objectivesSpecEntryErrs mf en) := by
  unfold objectivesEntryStep objectivesSpecStep objectivesSpecEntryErrs
  rcases hsp : splitString ':' en with _ | ⟨k, _ | ⟨v, _ | ⟨w, r3⟩⟩⟩ <;>
    (simp only [hsp]; try rfl)
  cases hk : parseFloat? (trimSpace k) <;> cases hv : parseFloat? (trimSpace v) <;>
    simp [hk, hv, MetricField.appendError]

theorem objectivesFold_eq (mf : MetricField) :
    ∀ (entries : List String) (m : List (ℚ × ℚ)) (errs : List Err),
      entries.foldl (objectivesEntryStep mf) (m, errs) =
        (entries.foldl objectivesSpecStep m, errs ++ entries.flatMap (objectivesSpecEntryErrs mf))
  | [], m, errs => by simp
  | en :: rest, m, errs => by
    rw [List.foldl_cons, List.foldl_cons, objectivesStep_spec mf (m, errs) en,
      objectivesFold_eq mf rest]
    simp

/-- Counterexample to claim C7 as stated: the single objectives entry `a:b`
is one malformed entry but contributes two errors (one per malformed side),
not exactly one. -/
theorem C7_counterexample :
    ¬ ((badObjectivesField.objectives []).2.length = 1) ∧
    (badObjectivesField.objectives []).2.length = 2 := by
  constructor
  · decide
  · decide

/-- Claim C7 (amended): objectives tag parsing: an empty tag yields no
objectives and no error; otherwise the value is split on commas, every entry
is examined, and the aggregate appends, per entry, one error when the entry is
not exactly two colon-separated parts and otherwise one error per side that
fails to parse as a floating-point number (so an entry with both sides
malformed contributes two); every entry whose error side parses has its
quantile/error pair inserted into the resulting map (the quantile side
defaulting to zero when it fails to parse). -/
theorem C7_objectives_parsing (mf : MetricField) (appendErr : List Err) :
    (tagGet mf.tags TagObjectives = "" → mf.objectives appendErr = (none, appendErr)) ∧
    (tagGet mf.tags TagObjectives ≠ "" →
      mf.objectives appendErr =
        (some ((splitString ',' (tagGet mf.tags TagObjectives)).foldl objectivesSpecStep []),
          appendErr ++ (splitString ',' (tagGet mf.tags TagObjectives)).flatMap
            (objectivesSpecEntryErrs mf))) ∧
    (∀ entry, (objectivesSpecEntryErrs mf entry).length =
      (match splitString ':' entry with
        | [k, v] =>
          (if (parseFloat? (trimSpace k)).isSome then 0 else 1) +
            (if (parseFloat? (trimSpace v)).isSome then 0 else 1)
        | _ => 1)) ∧
    (∀ entry k v q, splitString ':' entry = [k, v] → parseFloat? (trimSpace v) = some q →
      ∀ m, (objectivesSpecStep m entry).lookup ((parseFloat? (trimSpace k)).getD 0) = some q) := by
  refine ⟨?_, ?_, ?_, ?_⟩
  · intro h
    unfold MetricField.objectives
    rw [if_pos (by rw [h]; rfl)]
  · intro h
    unfold MetricField.objectives
    rw [if_neg (fun he => h ((String.isEmpty_iff _).mp he)),
      objectivesFold_eq mf _ [] appendErr]
  · intro entry
    unfold objectivesSpecEntryErrs
    rcases hsp : splitString ':' entry with _ | ⟨k, _ | ⟨v, _ | ⟨w, r3⟩⟩⟩ <;> simp only [hsp] <;>
      try rfl
    cases hk : parseFloat? (trimSpace k) <;> cases hv : parseFloat? (trimSpace v) <;>
      simp [hk, hv]
  · intro entry k v q hsp hq m
    unfold objectivesSpecStep
    rw [hsp]
    simp only [hq]
    exact mapUpsert_lookup m _ q

/-- Witness for C7 (amended): the decomposition at the concrete field whose
objectives tag is `a:b`, and the empty-tag clause at a tag-free field. -/
theorem C7_witness :
    badObjectivesField.objectives [] =
      (some ((splitString ',' (tagGet badObjectivesField.tags TagObjectives)).foldl
          objectivesSpecStep []),
        [] ++ (splitString ',' (tagGet badObjectivesField.tags TagObjectives)).flatMap
          (objectivesSpecEntryErrs badObjectivesField)) ∧
    demoValidGauge.objectives [] = (none, []) :=
  ⟨(C7_objectives_parsing badObjectivesField []).2.1 (by decide),
   (C7_objectives_parsing demoValidGauge []).1 (by decide)⟩

theorem populateFrom_cons_skip (factory : Factory) (i : ℕ) (f : MetricField)
    (rest : List MetricField) (hs : f.skip = true) :
    populateFrom factory i (f :: rest) = populateFrom factory (i + 1) rest := by
  simp only [populateFrom]
  rw [if_pos hs]

theorem populateFrom_cons_err (factory : Factory) (i : ℕ) (f : MetricField)
    (rest : List MetricField) (hs : f.skip = false)
    (hc : ((f.newOpts).opts.isNone || !(f.newOpts).errs.isEmpty) = true) :
    populateFrom factory i (f :: rest) =
      ⟨(f.newOpts).errs ++ (populateFrom factory (i + 1) rest).errs,
        (populateFrom factory (i + 1) rest).assigned,
        (populateFrom factory (i + 1) rest).calls⟩ := by
  simp only [populateFrom]
  rw [if_neg (by simp [hs]), if_pos hc]

theorem populateFrom_cons_ok (factory : Factory) (i : ℕ) (f : MetricField)
    (rest : List MetricField) (o : Opts) (m : Metric) (hs : f.skip = false)
    (he : (f.newOpts).errs = []) (ho : (f.newOpts).opts = some o)
    (hm : factory o (f.newOpts).labels = .ok m) :
    populateFrom factory i (f :: rest) =
      ⟨(f.newOpts).errs ++ (populateFrom factory (i + 1) rest).errs,
        (i, m) :: (populateFrom factory (i + 1) rest).assigned,
        (o, (f.newOpts).labels) :: (populateFrom factory (i + 1) rest).calls⟩ := by
  simp only [populateFrom]
  rw [if_neg (by simp [hs]), if_neg (by simp [he, ho])]
  simp only [ho, hm]

theorem populateFrom_spec (factory : Factory)
    (hfac : ∀ o ls, ∃ m, factory o ls = Except.ok m) :
    ∀ (fields : List MetricField) (i : ℕ),
      (populateFrom factory i fields).errs =
        (fields.filter fieldInvalid).flatMap (fun f => (f.newOpts).errs) ∧
      ∀ j (hj : j < fields.length), fieldValid (fields.get ⟨j, hj⟩) = true →
        ∃ m, (i + j, m) ∈ (populateFrom factory i fields).assigned
  | [], i => by simp [populateFrom]
  | f :: rest, i => by
    obtain ⟨ih1, ih2⟩ := populateFrom_spec factory hfac rest (i + 1)
    by_cases hs : f.skip = true
    · rw [populateFrom_cons_skip factory i f rest hs]
      constructor
      · rw [ih1]
        have hfi : fieldInvalid f = false := by simp [fieldInvalid, hs]
        simp [List.filter_cons, hfi]
      · intro j hj hvj
        cases j with
        | zero =>
          exfalso
          simp [fieldValid, hs] at hvj
        | succ j' =>
          have hj' : j' < rest.length := by simpa using hj
          obtain ⟨m, hm⟩ := ih2 j' hj' (by simpa using hvj)
          refine ⟨m, ?_⟩
          have hidx : i + (j' + 1) = (i + 1) + j' := by omega
          rw [hidx]
          exact hm
    · have hs' : f.skip = false := by simpa using hs
      by_cases hc : ((f.newOpts).opts.isNone || !(f.newOpts).errs.isEmpty) = true
      · rw [populateFrom_cons_err factory i f rest hs' hc]
        constructor
        · by_cases herr : (f.newOpts).errs.isEmpty = true
          · have herr' : (f.newOpts).errs = [] := by simpa [List.isEmpty_iff] using herr
            have hfi : fieldInvalid f = false := by simp [fieldInvalid, herr]
            rw [herr']
            simp only [List.nil_append]
            rw [ih1]
            simp [List.filter_cons, hfi]
          · have hfi : fieldInvalid f = true := by
              simp [fieldInvalid, hs']
              simpa using herr
            rw [ih1]
            simp [List.filter_cons, hfi]
        · intro j hj hvj
          cases j with
          | zero =>
            exfalso
            simp only [List.get] at hvj
            rcases Bool.or_eq_true _ _ |>.mp hc with h | h
            · simp [fieldValid, Option.isNone_iff_eq_none.mp h] at hvj
            · simp [fieldValid, hs'] at hvj
              rw [hvj.1] at h
              simp at h
          | succ j' =>
            have hj' : j' < rest.length := by simpa using hj
            obtain ⟨m, hm⟩ := ih2 j' hj' (by simpa using hvj)
            refine ⟨m, ?_⟩
            have hidx : i + (j' + 1) = (i + 1) + j' := by omega
            rw [hidx]
            exact hm
      · have hcc := hc
        simp only [Bool.or_eq_true, not_or, Bool.not_eq_true] at hcc
        obtain ⟨hop, herr⟩ := hcc
        have herr' : (f.newOpts).errs = [] := by
          have : (f.newOpts).errs.isEmpty = true := by
            rcases h2 : (f.newOpts).errs.isEmpty with _ | _
            · rw [h2] at herr
              simp at herr
            · rfl
          simpa [List.isEmpty_iff] using this
        obtain ⟨o, ho⟩ : ∃ o, (f.newOpts).opts = some o := by
          cases hopt : (f.newOpts).opts with
          | none => rw [hopt] at hop; simp at hop
          | some o => exact ⟨o, rfl⟩
        obtain ⟨m, hm⟩ := hfac o (f.newOpts).labels
        rw [populateFrom_cons_ok factory i f rest o m hs' herr' ho hm]
        constructor
        · have hfi : fieldInvalid f = false := by simp [fieldInvalid, herr']
          rw [herr']
          simp only [List.nil_append]
          rw [ih1]
          simp [List.filter_cons, hfi]
        · intro j hj hvj
          cases j with
          | zero =>
            refine ⟨m, ?_⟩
            simp
          | succ j' =>
            have hj' : j' < rest.length := by simpa using hj
            obtain ⟨m2, hm2⟩ := ih2 j' hj' (by simpa using hvj)
            refine ⟨m2, ?_⟩
            have hidx : i + (j' + 1) = (i + 1) + j' := by omega
            rw [hidx]
            exact List.mem_cons_of_mem _ hm2

theorem flatMap_singleton_length {α : Type} (g : α → List Err) :
    ∀ l : List α, (∀ f ∈ l, (g f).length = 1) → (l.flatMap g).length = l.length
  | [], _ => rfl
  | f :: rest, h => by
    rw [List.flatMap_cons, List.length_append, h f (by simp),
      flatMap_singleton_length g rest (fun x hx => h x (by simp [hx]))]
    rw [List.length_cons]
    omega

/-- Claim C1: fail-soft aggregation: populating a bundle whose non-skipped
fields are independently invalid (one error each) or valid yields, with a
factory that always succeeds, the aggregate error equal to the concatenation
in declaration order of each invalid field's own single error — exactly one
per invalid field, each `FieldError` naming its own field — while every valid
field is still constructed and assigned its metric handle at its index. -/
theorem C1_fail_soft_aggregation (factory : Factory)
    (hfac : ∀ o ls, ∃ m, factory o ls = Except.ok m)
    (fields : List MetricField)
    (hone : ∀ f ∈ fields, fieldInvalid f = true → ((f.newOpts).errs).length = 1) :
    Populate factory (.structPtr (some fields)) = .ok (populateFrom factory 0 fields) ∧
    (populateFrom factory 0 fields).errs =
      (fields.filter fieldInvalid).flatMap (fun f => (f.newOpts).errs) ∧
    ((populateFrom factory 0 fields).errs).length = (fields.filter fieldInvalid).length ∧
    (∀ f ∈ fields, ∀ fe, Err.field fe ∈ (f.newOpts).errs →
      fe.fieldName = f.fname ∧ fe.fieldType = f.ftype) ∧
    (∀ j (hj : j < fields.length), fieldValid (fields.get ⟨j, hj⟩) = true →
      ∃ m, (j, m) ∈ (populateFrom factory 0 fields).assigned) := by
  obtain ⟨h1, h2⟩ := populateFrom_spec factory hfac fields 0
  refine ⟨rfl, h1, ?_, ?_, ?_⟩
  · rw [h1]
    exact flatMap_singleton_length _ _
      (fun f hf => hone f (List.mem_filter.mp hf).1 (List.mem_filter.mp hf).2)
  · intro f hf fe hfe
    exact newOpts_errs_belong f _ hfe
  · intro j hj hv
    simpa using h2 j hj hv

/-- Witness for C1: the three-field demo bundle (invalid counter, valid gauge,
invalid counter-vector) under the always-succeeding factory. -/
theorem C1_witness :
    (populateFrom okFactory 0 demoBundleFields).errs =
      (demoBundleFields.filter fieldInvalid).flatMap (fun f => (f.newOpts).errs) ∧
    ((populateFrom okFactory 0 demoBundleFields).errs).length =
      (demoBundleFields.filter fieldInvalid).length ∧
    ∃ m, (1, m) ∈ (populateFrom okFactory 0 demoBundleFields).assigned :=
  have h := C1_fail_soft_aggregation okFactory (fun o ls => ⟨(o, ls), rfl⟩)
    demoBundleFields (by decide)
  ⟨h.2.1, h.2.2.1, h.2.2.2.2 1 (by decide) (by decide)⟩

/-- Claim C2: structural rejection: an argument that is not a struct and not a
non-nil pointer to a struct (a non-struct value, any pointer to a non-struct,
or a nil pointer to a struct) makes `Populate` return the descriptive
structural error, for every factory — no fields are processed and the factory
is never invoked. -/
theorem C2_structural_rejection (factory : Factory) (b : BundleArg)
    (hb : b = .intVal ∨ (∃ isNil, b = .intPtr isNil) ∨ b = .structPtr none) :
    Populate factory b = .error (invalidBundleMessage b) := by
  rcases hb with rfl | ⟨n, rfl⟩ | rfl
  · rfl
  · cases n <;> rfl
  · rfl

/-- Witness for C2 at an `int` value and a nil struct pointer. -/
theorem C2_witness :
    Populate okFactory BundleArg.intVal =
      .error (invalidBundleMessage BundleArg.intVal) ∧
    Populate okFactory (BundleArg.structPtr none) =
      .error (invalidBundleMessage (BundleArg.structPtr none)) :=
  ⟨C2_structural_rejection okFactory _ (Or.inl rfl),
   C2_structural_rejection okFactory _ (Or.inr (Or.inr rfl))⟩

/-- Claim C10: a struct passed by value is never addressable once unpacked
from the interface argument, so `Populate` rejects it with the structural
error for every factory; consequently the only arguments on which field
population occurs are non-nil pointers to structs. -/
theorem C10_struct_value_rejected (factory : Factory) (fields : List MetricField) :
    (reflectValueOf (.structVal fields)).canAddr = false ∧
    Populate factory (.structVal fields) =
      .error (invalidBundleMessage (.structVal fields)) ∧
    (∀ (b : BundleArg) (r : PopResult), Populate factory b = .ok r →
      ∃ fs, b = .structPtr (some fs)) := by
  refine ⟨rfl, rfl, ?_⟩
  intro b r h
  cases b with
  | structVal fs =>
    have hcomp : Populate factory (BundleArg.structVal fs) =
        .error (invalidBundleMessage (BundleArg.structVal fs)) := rfl
    rw [hcomp] at h
    exact Except.noConfusion h
  | structPtr fs =>
    cases fs with
    | none =>
      have hcomp : Populate factory (BundleArg.structPtr none) =
          .error (invalidBundleMessage (BundleArg.structPtr none)) := rfl
      rw [hcomp] at h
      exact Except.noConfusion h
    | some fs => exact ⟨fs, rfl⟩
  | intVal =>
    have hcomp : Populate factory BundleArg.intVal =
        .error (invalidBundleMessage BundleArg.intVal) := rfl
    rw [hcomp] at h
    exact Except.noConfusion h
  | intPtr n =>
    cases n with
    | false =>
      have hcomp : Populate factory (BundleArg.intPtr false) =
          .error (invalidBundleMessage (BundleArg.intPtr false)) := rfl
      rw [hcomp] at h
      exact Except.noConfusion h
    | true =>
      have hcomp : Populate factory (BundleArg.intPtr true) =
          .error (invalidBundleMessage (BundleArg.intPtr true)) := rfl
      rw [hcomp] at h
      exact Except.noConfusion h

/-- Witness for C10 at the demo bundle fields passed by value. -/
theorem C10_witness :
    (reflectValueOf (BundleArg.structVal demoBundleFields)).canAddr = false ∧
    Populate okFactory (BundleArg.structVal demoBundleFields) =
      .error (invalidBundleMessage (BundleArg.structVal demoBundleFields)) :=
  ⟨(C10_struct_value_rejected okFactory demoBundleFields).1,
   (C10_struct_value_rejected okFactory demoBundleFields).2.1⟩
